import Mathlib

/-
Verification development for the SmartLarva Edge agent
(himankalita/Raspberry-pi-network).

Shallow embedding of the edge agent:
  * the four periodic loops of src/main.py (capture, heartbeat, sync, cleanup),
    each tick modelled as a pure state transformer over an explicit state;
  * the HTTP client of src/sync/client.py, with network outcomes supplied as
    oracle values;
  * the camera backends of src/camera/mock_camera.py and
    src/camera/rpi_camera.py, with the JPEG encoder and the SHA-256 function
    abstracted as parameters (their internals are irrelevant to the claims);
  * the Local Store (the Database class).  The file src/db.py is imported by
    src/main.py but is not among the available source files, so every Database
    operation below is modelled from the specification's §4.1 wording and is
    marked `Modelled from the spec:` in its doc comment.

Machine integers do not overflow in the relevant ranges, so identifiers are
Nat and timestamps are Int.  File contents are byte lists (List Nat).
-/

namespace SmartLarva

/-- Association-list lookup keyed by strings (used for the file system and the
process-state table). -/
def assocLookup {α : Type} : List (String × α) → String → Option α
  | [], _ => none
  | (q, v) :: rest, p => if q = p then some v else assocLookup rest p

/-- Association-list update: replaces the first binding of the key, appends a
new binding when the key is absent. -/
def assocSet {α : Type} : List (String × α) → String → α → List (String × α)
  | [], p, v => [(p, v)]
  | (q, w) :: rest, p, v =>
    if q = p then (p, v) :: rest else (q, w) :: assocSet rest p v

/-- Association-list removal of every binding of the key. -/
def assocRemove {α : Type} : List (String × α) → String → List (String × α)
  | [], _ => []
  | (q, w) :: rest, p =>
    if q = p then assocRemove rest p else (q, w) :: assocRemove rest p

/-- The on-disk image store: paths mapped to file contents (bytes). -/
abbrev FS := List (String × List Nat)

def fsLookup (fs : FS) (p : String) : Option (List Nat) := assocLookup fs p

def fsWrite (fs : FS) (p : String) (b : List Nat) : FS := assocSet fs p b

def fsRemove (fs : FS) (p : String) : FS := assocRemove fs p

/-- Python's os.path.exists. -/
def fsExists (fs : FS) (p : String) : Bool := (fsLookup fs p).isSome

/-- Crate row (crates_local).  Fields from src/main.py SmartLarvaEdge._ensure_crate. -/
structure CrateRecord where
  id : Nat
  crate_label : String
  location : Option String
  notes : Option String
  created_at : String
  ended_at : Option String
deriving Repr, DecidableEq

/-- Capture-event row (capture_events_local).  Fields from the
CaptureEventRecord constructed in src/main.py capture_loop. -/
structure CaptureEventRecord where
  event_id : Nat
  crate_id : Nat
  camera_name : String
  captured_at : Int
  burst_size : Nat
  uploaded : Bool
deriving Repr, DecidableEq

/-- Captured-image row (captured_images_local).  Fields from the
CapturedImageRecord constructed in src/main.py capture_loop; `id` is the
store-assigned row identifier (passed as None by the caller). -/
structure CapturedImageRecord where
  id : Nat
  event_local_id : Nat
  image_index : Nat
  local_path : String
  captured_at : Int
  size_bytes : Nat
  sha256_hex : String
  width_px : Nat
  height_px : Nat
  format : String
  metadata_uploaded : Bool
  uploaded : Bool
  local_exists : Bool
  corrupted : Bool
deriving Repr, DecidableEq

/-- Sensor-reading row (sensor_readings_local).  Fields from the
SensorReadingRecord constructed in src/main.py capture_loop. -/
structure SensorReadingRecord where
  reading_id : Nat
  crate_id : Nat
  recorded_at : Int
  temperature_c : Option Int
  humidity_pct : Option Int
  uploaded : Bool
deriving Repr, DecidableEq

/-- The Local Store.  `state` is the ProcessState key-value table;
`next_image_id` is the auto-increment counter for image row identifiers. -/
structure Database where
  crates : List CrateRecord
  events : List CaptureEventRecord
  images : List CapturedImageRecord
  readings : List SensorReadingRecord
  state : List (String × String)
  next_image_id : Nat
deriving Repr, DecidableEq

def emptyDB : Database :=
  { crates := [], events := [], images := [], readings := [], state := [],
    next_image_id := 1 }

/-- Modelled from the spec: src/db.py is not among the source files; §4.1
`upsertCrate` — insert if absent by identifier, else return the existing id
unchanged. -/
def insert_crate (db : Database) (c : CrateRecord) : Database × Nat :=
  if db.crates.any (fun d => d.id == c.id) then (db, c.id)
  else ({ db with crates := db.crates ++ [c] }, c.id)

/-- Modelled from the spec: src/db.py is not among the source files; §4.1
`insertEvent` is an append-only insert. -/
def insert_event (db : Database) (e : CaptureEventRecord) : Database :=
  { db with events := db.events ++ [e] }

/-- Modelled from the spec: src/db.py is not among the source files; §4.1
`insertImage` is an append-only insert; the store assigns the row identifier
(the caller passes id=None). -/
def insert_image (db : Database) (i : CapturedImageRecord) : Database :=
  { db with
    images := db.images ++ [{ i with id := db.next_image_id }],
    next_image_id := db.next_image_id + 1 }

/-- Modelled from the spec: src/db.py is not among the source files; §4.1
`insertSensorReading` is an append-only insert. -/
def insert_sensor_reading (db : Database) (r : SensorReadingRecord) : Database :=
  { db with readings := db.readings ++ [r] }

/-- Modelled from the spec: src/db.py is not among the source files; §4.1
`getUnsyncedEvents(limit)` — rows whose upload flag is unset, oldest-first
(insertion order), bounded by `limit`. -/
def get_unsynced_events (db : Database) (limit : Nat) : List CaptureEventRecord :=
  (db.events.filter (fun e => !e.uploaded)).take limit

/-- Modelled from the spec: src/db.py is not among the source files; the
read-only join used by the Sync Engine (§4.3) to attach images to an event. -/
def get_images_for_event (db : Database) (eid : Nat) : List CapturedImageRecord :=
  db.images.filter (fun i => i.event_local_id == eid)

/-- Modelled from the spec: src/db.py is not among the source files; §4.1
`markEventUploaded` — idempotent flag transition. -/
def mark_event_uploaded (db : Database) (eid : Nat) : Database :=
  { db with events := (db.events.map
      (fun e => if e.event_id = eid then { e with uploaded := true } else e)) }

/-- Modelled from the spec: src/db.py is not among the source files; §4.1
`markImageMetadataUploaded` — sets the metadata_uploaded flag of every image
of the event (src/main.py calls it once per event id). -/
def mark_image_metadata_uploaded (db : Database) (eid : Nat) : Database :=
  { db with images := (db.images.map
      (fun i => if i.event_local_id = eid then { i with metadata_uploaded := true } else i)) }

/-- Modelled from the spec: src/db.py is not among the source files; §4.1
`getUnsyncedReadings(limit)` (called get_sensor_readings with uploaded=0 in
src/main.py) — readings whose upload flag is unset, bounded by `limit`. -/
def get_sensor_readings (db : Database) (limit : Nat) : List SensorReadingRecord :=
  (db.readings.filter (fun r => !r.uploaded)).take limit

/-- Modelled from the spec: src/db.py is not among the source files; §4.1
`markReadingUploaded` — idempotent flag transition. -/
def mark_reading_uploaded (db : Database) (rid : Nat) : Database :=
  { db with readings := (db.readings.map
      (fun r => if r.reading_id = rid then { r with uploaded := true } else r)) }

/-- Modelled from the spec: src/db.py is not among the source files; §4.3 the
binary-sync query — images whose metadata is uploaded but whose binary payload
is not, and which are not corrupted (§8: a corrupted image is never again
selected by the binary-sync query), bounded by `limit`. -/
def get_unsynced_images (db : Database) (limit : Nat) : List CapturedImageRecord :=
  (db.images.filter (fun i => i.metadata_uploaded && !i.uploaded && !i.corrupted)).take limit

/-- Modelled from the spec: src/db.py is not among the source files; §4.1
`markImageUploaded` — keyed by (event id, image index) as in the src/main.py
call site. -/
def mark_image_uploaded (db : Database) (eid idx : Nat) : Database :=
  { db with images := (db.images.map
      (fun i => if i.event_local_id = eid ∧ i.image_index = idx then { i with uploaded := true } else i)) }

/-- Modelled from the spec: src/db.py is not among the source files; §4.1
`markImageCorrupted` — keyed by the row identifier as in the src/main.py call
site; sets the terminal corrupted flag. -/
def mark_image_corrupted (db : Database) (iid : Nat) : Database :=
  { db with images := (db.images.map
      (fun i => if i.id = iid then { i with corrupted := true } else i)) }

/-- Modelled from the spec: src/db.py is not among the source files; §4.1
`getCleanupCandidates(safeDeleteEventId, retentionDays, limit)` — images where
local_exists=1 AND owning event id is at most the watermark AND the capture
timestamp is older than the retention window, bounded by `limit`. -/
def get_cleanup_candidates (db : Database) (safeId : Int) (retention : Int)
    (now : Int) (limit : Nat) : List CapturedImageRecord :=
  (db.images.filter (fun i =>
    i.local_exists && decide ((i.event_local_id : Int) ≤ safeId)
      && decide (i.captured_at < now - retention))).take limit

/-- Modelled from the spec: src/db.py is not among the source files; §4.1
`markImageDeleted` — clears local_exists, keyed by the row identifier. -/
def mark_image_deleted (db : Database) (iid : Nat) : Database :=
  { db with images := (db.images.map
      (fun i => if i.id = iid then { i with local_exists := false } else i)) }

/-- Modelled from the spec: src/db.py is not among the source files; §4.1
`getStateValue(key)` returns an absent marker when unset. -/
def get_state_value (db : Database) (k : String) : Option String :=
  assocLookup db.state k

/-- Modelled from the spec: src/db.py is not among the source files; §4.1
`setStateValue(key, value)`. -/
def set_state_value (db : Database) (k v : String) : Database :=
  { db with state := assocSet db.state k v }

/-- The ProcessState key written by the heartbeat loop and read by the cleanup
loop (src/main.py). -/
def watermarkKey : String := "delete_safe_up_to_event_id"

/-- Modelled from the spec: src/db.py is not among the source files; §4.1
`maxId` over capture events — SELECT MAX(event_id), 0 when the table is empty
(src/main.py _get_max_id maps NULL to 0). -/
def maxEventId (db : Database) : Nat :=
  db.events.foldr (fun e m => max e.event_id m) 0

/-- Modelled from the spec: src/db.py is not among the source files; §4.1
`maxId` over sensor readings. -/
def maxReadingId (db : Database) : Nat :=
  db.readings.foldr (fun r m => max r.reading_id m) 0

/-- Static configuration fields consumed by the loops (src/config.py /
src/main.py). -/
structure SysConfig where
  device_id : String
  crate_id : Nat
  camera_name : String
  image_dir : String
  burst_size : Nat
  retention_days : Int
  sensor_enabled : Bool

/-- Whole-agent state: the Local Store, the on-disk image files, and the two
in-process identifier counters of SmartLarvaEdge. -/
structure EdgeState where
  db : Database
  fs : FS
  event_counter : Nat
  reading_counter : Nat
deriving Repr, DecidableEq

/-- Process startup (src/main.py SmartLarvaEdge.__init__): the counters are
seeded from the stored maxima (0 when the tables are empty); the store and the
files persist. -/
def startService (db : Database) (fs : FS) : EdgeState :=
  { db := db, fs := fs,
    event_counter := maxEventId db, reading_counter := maxReadingId db }

/-- Image artifact returned by a camera backend (src/camera/base.py
CapturedImage). -/
structure CapturedImage where
  image_index : Nat
  local_path : String
  size_bytes : Nat
  sha256_hex : String
  width_px : Nat
  height_px : Nat
  format : String
  captured_at : Int
deriving Repr, DecidableEq

/-- Zero-padded decimal rendering, Python's {n:0wd}. -/
def zeroPad (w n : Nat) : String :=
  let s := toString n
  String.mk (List.replicate (w - s.length) '0') ++ s

/-- Image file name pattern of both camera backends:
{event:08d}_{idx:03d}.jpg under the output directory. -/
def imagePath (dir : String) (eid idx : Nat) : String :=
  dir ++ "/" ++ zeroPad 8 eid ++ "_" ++ zeroPad 3 idx ++ ".jpg"

/-- From src/camera/mock_camera.py MockCamera.capture_burst, one loop
iteration per index: write the synthetic JPEG (its encoded bytes abstracted by
`bytesO`), read the file size, then recompute SHA-256 (abstracted by `H`) from
the bytes read back from the file just written (MockCamera._compute_sha256
re-opens the file).  `idx` is the next index, the second Nat argument the
number of iterations left. -/
def mockCaptureBurstAux (H : List Nat → String) (bytesO : Nat → List Nat)
    (eid : Nat) (dir : String) (now : Int) : Nat → Nat → FS → FS × List CapturedImage
  | _, 0, fs => (fs, [])
  | idx, k + 1, fs =>
    let path := imagePath dir eid idx
    let fs1 := fsWrite fs path (bytesO idx)
    let data := (fsLookup fs1 path).getD []
    let art : CapturedImage :=
      { image_index := idx, local_path := path, size_bytes := data.length,
        sha256_hex := H data, width_px := 640, height_px := 480,
        format := "jpg", captured_at := now }
    let rest := mockCaptureBurstAux H bytesO eid dir now (idx + 1) k fs1
    (rest.1, art :: rest.2)

/-- From src/camera/mock_camera.py MockCamera.capture_burst (default
640x480 instance, as constructed by src/main.py _init_camera). -/
def mockCaptureBurst (H : List Nat → String) (bytesO : Nat → List Nat)
    (eid : Nat) (dir : String) (burst : Nat) (now : Int) (fs : FS) :
    FS × List CapturedImage :=
  mockCaptureBurstAux H bytesO eid dir now 0 burst fs

/-- From src/camera/rpi_camera.py RpiCamera.capture_burst, the collection
phase after libcamera-still has written the files (`fs` is the file system
after the subprocess ran): for each index in order, skip the file when it does
not exist, otherwise read its size and compute SHA-256 of its on-disk bytes
(RpiCamera._compute_sha256). -/
def rpiCollect (H : List Nat → String) (eid : Nat) (dir : String) (now : Int)
    (fs : FS) : Nat → Nat → List CapturedImage
  | _, 0 => []
  | idx, k + 1 =>
    match fsLookup fs (imagePath dir eid idx) with
    | none => rpiCollect H eid dir now fs (idx + 1) k
    | some data =>
      { image_index := idx, local_path := imagePath dir eid idx,
        size_bytes := data.length, sha256_hex := H data,
        width_px := 4056, height_px := 3040, format := "jpg",
        captured_at := now } :: rpiCollect H eid dir now fs (idx + 1) k

/-- From src/camera/rpi_camera.py RpiCamera.capture_burst (default geometry,
as constructed by src/main.py _init_camera). -/
def rpiCaptureBurst (H : List Nat → String) (eid : Nat) (dir : String)
    (burst : Nat) (now : Int) (fs : FS) : List CapturedImage :=
  rpiCollect H eid dir now fs 0 burst

/-- Per-tick oracle for the capture loop: the clock, the sensor outcome
(src/sensors; a raised exception is `error`), and the camera behaviour
(event id, requested burst size, current files ↦ failure or new files plus
artifacts). -/
structure CaptureOracle where
  now : Int
  sensorRead : Except Unit (Option Int × Option Int)
  cam : Nat → Nat → FS → Except Unit (FS × List CapturedImage)

/-- The CaptureEventRecord inserted by src/main.py capture_loop:
burst_size is the number of images actually returned by the camera. -/
def mkEventRow (cfg : SysConfig) (eid : Nat) (now : Int)
    (arts : List CapturedImage) : CaptureEventRecord :=
  { event_id := eid, crate_id := cfg.crate_id, camera_name := cfg.camera_name,
    captured_at := now, burst_size := arts.length, uploaded := false }

/-- The CapturedImageRecord inserted by src/main.py capture_loop for one
artifact (id=None: the store assigns it at insert). -/
def mkImageRow (eid : Nat) (a : CapturedImage) : CapturedImageRecord :=
  { id := 0, event_local_id := eid, image_index := a.image_index,
    local_path := a.local_path, captured_at := a.captured_at,
    size_bytes := a.size_bytes, sha256_hex := a.sha256_hex,
    width_px := a.width_px, height_px := a.height_px, format := a.format,
    metadata_uploaded := false, uploaded := false, local_exists := true,
    corrupted := false }

/-- The per-artifact insert loop of src/main.py capture_loop. -/
def insertImages (eid : Nat) : List CapturedImage → Database → Database
  | [], db => db
  | a :: rest, db => insertImages eid rest (insert_image db (mkImageRow eid a))

/-- One tick of src/main.py capture_loop.  The counters are pre-incremented
before any fallible call, so a failed tick still consumes its identifiers; the
sensor reading is inserted before the camera is invoked; the event row and the
image rows are inserted only after the camera returned. -/
def captureTick (cfg : SysConfig) (o : CaptureOracle) (s : EdgeState) : EdgeState :=
  let eid := s.event_counter + 1
  if cfg.sensor_enabled then
    let rid := s.reading_counter + 1
    match o.sensorRead with
    | Except.error _ => { s with event_counter := eid, reading_counter := rid }
    | Except.ok (t, h) =>
      let db1 := insert_sensor_reading s.db
        { reading_id := rid, crate_id := cfg.crate_id, recorded_at := o.now,
          temperature_c := t, humidity_pct := h, uploaded := false }
      match o.cam eid cfg.burst_size s.fs with
      | Except.error _ =>
        { db := db1, fs := s.fs, event_counter := eid, reading_counter := rid }
      | Except.ok (fs2, arts) =>
        { db := insertImages eid arts (insert_event db1 (mkEventRow cfg eid o.now arts)),
          fs := fs2, event_counter := eid, reading_counter := rid }
  else
    match o.cam eid cfg.burst_size s.fs with
    | Except.error _ => { s with event_counter := eid }
    | Except.ok (fs2, arts) =>
      { db := insertImages eid arts (insert_event s.db (mkEventRow cfg eid o.now arts)),
        fs := fs2, event_counter := eid, reading_counter := s.reading_counter }

/-- From src/sync/client.py SyncClient.send_heartbeat: the outer Option is the
transport (none = request raised, caught, None returned); the inner Option is
response.json().get of the watermark key (none = key absent or null).  Both
failure shapes collapse to none. -/
def send_heartbeat (resp : Option (Option Int)) : Option Int :=
  match resp with
  | none => none
  | some body => body

/-- One tick of src/main.py heartbeat_loop: store the received watermark
verbatim (stringified) only when one was returned. -/
def heartbeatTick (resp : Option (Option Int)) (s : EdgeState) : EdgeState :=
  match send_heartbeat resp with
  | none => s
  | some v => { s with db := set_state_value s.db watermarkKey (toString v) }

/-- Result of one binary image PUT as seen by src/sync/client.py upload_image:
the server accepted it, the server rejected it (raise_for_status raised), or
the network failed. -/
inductive ImgUploadResult where
  | accepted
  | rejected
  | transportError
deriving Repr, DecidableEq

/-- From src/sync/client.py SyncClient.upload_image: open the local file (a
missing file raises, the blanket except returns False), perform the PUT, and
return False on ANY exception — a transport error and a server-side rejection
are indistinguishable in the returned Bool. -/
def uploadImage (res : ImgUploadResult) (fs : FS) (path : String) : Bool :=
  match fsLookup fs path with
  | none => false
  | some _ =>
    match res with
    | ImgUploadResult.accepted => true
    | ImgUploadResult.rejected => false
    | ImgUploadResult.transportError => false

/-- Per-tick oracle for the sync loop: the metadata-upload outcome, the
sensor-batch upload outcome, and the per-image binary-upload outcome keyed by
(event id, image index). -/
structure SyncOracle where
  metaResult : Bool
  sensorResult : Bool
  imgResult : Nat → Nat → ImgUploadResult

/-- The on-success marking loop of src/main.py sync_loop: for every event of
the batch, mark the event uploaded and mark its images' metadata uploaded. -/
def markEventsBatch : List CaptureEventRecord → Database → Database
  | [], db => db
  | e :: rest, db =>
    markEventsBatch rest (mark_image_metadata_uploaded (mark_event_uploaded db e.event_id) e.event_id)

/-- Metadata sub-step of src/main.py sync_loop: fetch up to 5 unsynced events;
when there are any, submit the batch; mark all of them only on success. -/
def metadataSyncStep (o : SyncOracle) (db : Database) : Database :=
  let events := get_unsynced_events db 5
  if events.isEmpty then db
  else if o.metaResult then markEventsBatch events db
  else db

/-- The on-success marking loop for sensor readings in src/main.py sync_loop. -/
def markReadingsBatch : List SensorReadingRecord → Database → Database
  | [], db => db
  | r :: rest, db => markReadingsBatch rest (mark_reading_uploaded db r.reading_id)

/-- Sensor-metadata sub-step of src/main.py sync_loop: up to 10 unsynced
readings, marked only on success. -/
def sensorSyncStep (o : SyncOracle) (db : Database) : Database :=
  let readings := get_sensor_readings db 10
  if readings.isEmpty then db
  else if o.sensorResult then markReadingsBatch readings db
  else db

/-- The per-image loop of the binary sub-step of src/main.py sync_loop: a True
result marks the image uploaded, ANY False result marks it corrupted ("to
avoid infinite retries"). -/
def processImageUploads (o : SyncOracle) (fs : FS) :
    List CapturedImageRecord → Database → Database
  | [], db => db
  | i :: rest, db =>
    if uploadImage (o.imgResult i.event_local_id i.image_index) fs i.local_path then
      processImageUploads o fs rest (mark_image_uploaded db i.event_local_id i.image_index)
    else
      processImageUploads o fs rest (mark_image_corrupted db i.id)

/-- Binary-image sub-step of src/main.py sync_loop: up to 3 images. -/
def binarySyncStep (o : SyncOracle) (fs : FS) (db : Database) : Database :=
  processImageUploads o fs (get_unsynced_images db 3) db

/-- One tick of src/main.py sync_loop: the three sub-steps in order. -/
def syncTick (o : SyncOracle) (s : EdgeState) : EdgeState :=
  { s with db := binarySyncStep o s.fs (sensorSyncStep o (metadataSyncStep o s.db)) }

/-- Per-tick oracle for the cleanup loop: the clock and, per path, whether
os.remove raises (permission or I/O error) on an existing file. -/
structure CleanupOracle where
  now : Int
  removeFails : String → Bool

/-- The per-candidate loop of src/main.py cleanup_loop: remove the file only
if it exists; a raised removal error skips the row (flags untouched) and
continues with the next candidate; otherwise — whether or not the file
existed — mark the row deleted. -/
def processCandidates (o : CleanupOracle) :
    List CapturedImageRecord → Database → FS → Database × FS
  | [], db, fs => (db, fs)
  | c :: rest, db, fs =>
    if fsExists fs c.local_path then
      if o.removeFails c.local_path then
        processCandidates o rest db fs
      else
        processCandidates o rest (mark_image_deleted db c.id) (fsRemove fs c.local_path)
    else
      processCandidates o rest (mark_image_deleted db c.id) fs

/-- Decimal digits to a number (auxiliary for `parseInt`). -/
def parseNatDigits (cs : List Char) : Option Nat :=
  match cs with
  | [] => none
  | _ =>
    if cs.all Char.isDigit then
      some (cs.foldl (fun n c => n * 10 + (c.toNat - 48)) 0)
    else none

/-- Python's int() applied to a decimal string (an optional leading minus sign
followed by digits; anything else raises, which the caller's blanket handler
turns into a skipped tick).  The only strings the agent ever parses are the
ones it wrote itself via str() of an integer. -/
def parseInt (s : String) : Option Int :=
  match s.data with
  | '-' :: rest => (parseNatDigits rest).map (fun n => -(n : Int))
  | l => (parseNatDigits l).map (fun n => (n : Int))

/-- One tick of src/main.py cleanup_loop: read the watermark; when absent, do
nothing; when unparsable, int() raises and the outer handler swallows the tick;
otherwise process up to 20 candidates. -/
def cleanupTick (cfg : SysConfig) (o : CleanupOracle) (s : EdgeState) : EdgeState :=
  match get_state_value s.db watermarkKey with
  | none => s
  | some w =>
    match parseInt w with
    | none => s
    | some safeId =>
      let cands := get_cleanup_candidates s.db safeId cfg.retention_days o.now 20
      let res := processCandidates o cands s.db s.fs
      { s with db := res.1, fs := res.2 }

/-- One observable transition of the agent: a tick of one of the four loops
(each loop body is serialized through the store, src/main.py start), or a
process restart.  The capture constructor records the fact, true of both
camera backends in src/camera, that one burst never repeats an image index. -/
inductive Step (cfg : SysConfig) : EdgeState → EdgeState → Prop where
  | capture (s : EdgeState) (o : CaptureOracle)
      (hcam : ∀ fs2 arts, o.cam (s.event_counter + 1) cfg.burst_size s.fs = Except.ok (fs2, arts) →
        (arts.map (fun a => a.image_index)).Nodup) :
      Step cfg s (captureTick cfg o s)
  | heartbeat (s : EdgeState) (resp : Option (Option Int)) :
      Step cfg s (heartbeatTick resp s)
  | sync (s : EdgeState) (o : SyncOracle) : Step cfg s (syncTick o s)
  | cleanup (s : EdgeState) (o : CleanupOracle) : Step cfg s (cleanupTick cfg o s)
  | restart (s : EdgeState) : Step cfg s (startService s.db s.fs)

/-- States reachable from a fresh install (empty store, any image files). -/
inductive Reachable (cfg : SysConfig) : EdgeState → Prop where
  | init (fs : FS) : Reachable cfg (startService emptyDB fs)
  | step {s s' : EdgeState} : Reachable cfg s → Step cfg s s' → Reachable cfg s'

/-- The (event id, image index) key of an image row, unique per §4.1. -/
def imgKey (i : CapturedImageRecord) : Nat × Nat := (i.event_local_id, i.image_index)

theorem assocLookup_assocSet_self {α : Type} (l : List (String × α)) (p : String) (v : α) :
    assocLookup (assocSet l p v) p = some v := by
  induction l with
  | nil => simp [assocSet, assocLookup]
  | cons hd tl ih =>
    obtain ⟨q, w⟩ := hd
    by_cases h : q = p
    · simp [assocSet, assocLookup, h]
    · simp [assocSet, assocLookup, h, ih]

theorem assocLookup_assocSet_ne {α : Type} (l : List (String × α)) (p q : String) (v : α)
    (h : q ≠ p) : assocLookup (assocSet l p v) q = assocLookup l q := by
  have h2 : p ≠ q := fun e => h e.symm
  induction l with
  | nil => simp [assocSet, assocLookup, h2]
  | cons hd tl ih =>
    obtain ⟨k, w⟩ := hd
    by_cases hk : k = p
    · subst hk
      simp [assocSet, assocLookup, h2]
    · simp [assocSet, assocLookup, hk, ih]

theorem assocLookup_assocRemove_self {α : Type} (l : List (String × α)) (p : String) :
    assocLookup (assocRemove l p) p = none := by
  induction l with
  | nil => simp [assocRemove, assocLookup]
  | cons hd tl ih =>
    obtain ⟨k, w⟩ := hd
    by_cases hk : k = p
    · simp [assocRemove, assocLookup, hk, ih]
    · simp [assocRemove, assocLookup, hk, ih]

theorem assocLookup_assocRemove_ne {α : Type} (l : List (String × α)) (p q : String)
    (h : q ≠ p) : assocLookup (assocRemove l p) q = assocLookup l q := by
  have h2 : p ≠ q := fun e => h e.symm
  induction l with
  | nil => simp [assocRemove]
  | cons hd tl ih =>
    obtain ⟨k, w⟩ := hd
    by_cases hk : k = p
    · subst hk
      simp [assocRemove, assocLookup, h2, ih]
    · simp [assocRemove, assocLookup, hk, ih]

theorem fsLookup_fsWrite_self (fs : FS) (p : String) (b : List Nat) :
    fsLookup (fsWrite fs p b) p = some b :=
  assocLookup_assocSet_self fs p b

theorem fsLookup_fsWrite_ne (fs : FS) (p q : String) (b : List Nat) (h : q ≠ p) :
    fsLookup (fsWrite fs p b) q = fsLookup fs q :=
  assocLookup_assocSet_ne fs p q b h

theorem fsLookup_fsRemove_ne (fs : FS) (p q : String) (h : q ≠ p) :
    fsLookup (fsRemove fs p) q = fsLookup fs q :=
  assocLookup_assocRemove_ne fs p q h

/-- Every branch of a capture tick pre-increments the event counter (the
counter advances even when the sensor or the camera raises). -/
theorem captureTick_event_counter (cfg : SysConfig) (o : CaptureOracle) (s : EdgeState) :
    (captureTick cfg o s).event_counter = s.event_counter + 1 := by
  unfold captureTick
  by_cases hs : cfg.sensor_enabled
  · simp only [hs, if_true]
    cases o.sensorRead with
    | error e => rfl
    | ok pr =>
      obtain ⟨t, h⟩ := pr
      cases hc : o.cam (s.event_counter + 1) cfg.burst_size s.fs with
      | error e => simp [hc]
      | ok pr2 =>
        obtain ⟨fs2, arts⟩ := pr2
        simp [hc]
  · simp only [hs]
    cases hc : o.cam (s.event_counter + 1) cfg.burst_size s.fs with
    | error e => simp [hc]
    | ok pr2 =>
      obtain ⟨fs2, arts⟩ := pr2
      simp [hc]

/-- With the sensor enabled, every branch of a capture tick pre-increments the
reading counter as well. -/
theorem captureTick_reading_counter (cfg : SysConfig) (o : CaptureOracle) (s : EdgeState)
    (hs : cfg.sensor_enabled = true) :
    (captureTick cfg o s).reading_counter = s.reading_counter + 1 := by
  unfold captureTick
  simp only [hs, if_true]
  cases o.sensorRead with
  | error e => rfl
  | ok pr =>
    obtain ⟨t, h⟩ := pr
    cases hc : o.cam (s.event_counter + 1) cfg.burst_size s.fs with
    | error e => simp [hc]
    | ok pr2 =>
      obtain ⟨fs2, arts⟩ := pr2
      simp [hc]

theorem heartbeatTick_counters (resp : Option (Option Int)) (s : EdgeState) :
    (heartbeatTick resp s).event_counter = s.event_counter ∧
    (heartbeatTick resp s).reading_counter = s.reading_counter := by
  unfold heartbeatTick
  cases resp with
  | none => exact ⟨rfl, rfl⟩
  | some body => cases body with
    | none => exact ⟨rfl, rfl⟩
    | some v => exact ⟨rfl, rfl⟩

theorem syncTick_counters (o : SyncOracle) (s : EdgeState) :
    (syncTick o s).event_counter = s.event_counter ∧
    (syncTick o s).reading_counter = s.reading_counter :=
  ⟨rfl, rfl⟩

theorem cleanupTick_counters (cfg : SysConfig) (o : CleanupOracle) (s : EdgeState) :
    (cleanupTick cfg o s).event_counter = s.event_counter ∧
    (cleanupTick cfg o s).reading_counter = s.reading_counter := by
  unfold cleanupTick
  split
  · exact ⟨rfl, rfl⟩
  · split
    · exact ⟨rfl, rfl⟩
    · exact ⟨rfl, rfl⟩

/-- C7: a heartbeat tick that fails — transport error (resp = none) or a
malformed/absent watermark field in the response (resp = some none) — leaves
the whole agent state, in particular the stored safe-delete watermark, exactly
as it was; a successful tick stores the server-provided value verbatim
(stringified, as src/main.py heartbeat_loop does) under the watermark key and
changes nothing else. -/
theorem claim_C7 (s : EdgeState) :
    (∀ resp, resp = none ∨ resp = some none → heartbeatTick resp s = s) ∧
    (∀ v : Int,
      get_state_value (heartbeatTick (some (some v)) s).db watermarkKey = some (toString v) ∧
      (∀ k, k ≠ watermarkKey →
        get_state_value (heartbeatTick (some (some v)) s).db k = get_state_value s.db k) ∧
      (heartbeatTick (some (some v)) s).db.events = s.db.events ∧
      (heartbeatTick (some (some v)) s).db.images = s.db.images ∧
      (heartbeatTick (some (some v)) s).db.readings = s.db.readings ∧
      (heartbeatTick (some (some v)) s).fs = s.fs) := by
  constructor
  · rintro resp (rfl | rfl) <;> rfl
  · intro v
    refine ⟨?_, ?_, rfl, rfl, rfl, rfl⟩
    · exact assocLookup_assocSet_self s.db.state watermarkKey (toString v)
    · intro k hk
      exact assocLookup_assocSet_ne s.db.state watermarkKey k (toString v) hk

theorem claim_C7_witness :
    heartbeatTick none (startService emptyDB []) = startService emptyDB [] ∧
    get_state_value (heartbeatTick (some (some 5)) (startService emptyDB [])).db watermarkKey
      = some "5" :=
  ⟨(claim_C7 (startService emptyDB [])).1 none (Or.inl rfl),
   (((claim_C7 (startService emptyDB [])).2 5).1).trans
     (by decide : some (toString (5 : Int)) = some "5")⟩

/-- C10: a capture tick is not atomic.  With the sensor enabled, a successful
sensor read, and a camera failure, the tick leaves the freshly inserted sensor
reading committed (with its upload flag unset, so the sensor-sync sub-step will
pick it up), inserts no capture-event row and no image rows, leaves the files
untouched, and still consumes the event identifier, which is never backfilled:
the next capture tick allocates the identifier after it. -/
theorem claim_C10 (cfg : SysConfig) (o : CaptureOracle) (s : EdgeState)
    (t h : Option Int)
    (hsen : cfg.sensor_enabled = true)
    (hread : o.sensorRead = Except.ok (t, h))
    (hcam : o.cam (s.event_counter + 1) cfg.burst_size s.fs = Except.error ()) :
    (captureTick cfg o s).db.readings = s.db.readings ++
      [{ reading_id := s.reading_counter + 1, crate_id := cfg.crate_id,
         recorded_at := o.now, temperature_c := t, humidity_pct := h,
         uploaded := false }] ∧
    (captureTick cfg o s).db.events = s.db.events ∧
    (captureTick cfg o s).db.images = s.db.images ∧
    (captureTick cfg o s).fs = s.fs ∧
    (captureTick cfg o s).event_counter = s.event_counter + 1 ∧
    (∀ o2 : CaptureOracle,
      (captureTick cfg o2 (captureTick cfg o s)).event_counter = s.event_counter + 2) := by
  have hstep : captureTick cfg o s =
      { db := insert_sensor_reading s.db
          { reading_id := s.reading_counter + 1, crate_id := cfg.crate_id,
            recorded_at := o.now, temperature_c := t, humidity_pct := h,
            uploaded := false },
        fs := s.fs, event_counter := s.event_counter + 1,
        reading_counter := s.reading_counter + 1 } := by
    unfold captureTick
    simp [hsen, hread, hcam]
  refine ⟨?_, ?_, ?_, ?_, ?_, ?_⟩
  · simp [hstep, insert_sensor_reading]
  · simp [hstep, insert_sensor_reading]
  · simp [hstep, insert_sensor_reading]
  · simp [hstep, insert_sensor_reading]
  · exact captureTick_event_counter cfg o s
  · intro o2
    rw [captureTick_event_counter cfg o2 (captureTick cfg o s),
      captureTick_event_counter cfg o s]

/-- The image rows produced by the insert loop of a successful capture tick:
one row per artifact, with store-assigned identifiers counting up from
`nid`. -/
def rowsOf (eid : Nat) : Nat → List CapturedImage → List CapturedImageRecord
  | _, [] => []
  | nid, a :: rest => { mkImageRow eid a with id := nid } :: rowsOf eid (nid + 1) rest

theorem insertImages_spec (eid : Nat) (arts : List CapturedImage) (db : Database) :
    (insertImages eid arts db).crates = db.crates ∧
    (insertImages eid arts db).events = db.events ∧
    (insertImages eid arts db).readings = db.readings ∧
    (insertImages eid arts db).state = db.state ∧
    (insertImages eid arts db).next_image_id = db.next_image_id + arts.length ∧
    (insertImages eid arts db).images = db.images ++ rowsOf eid db.next_image_id arts := by
  induction arts generalizing db with
  | nil => simp [insertImages, rowsOf]
  | cons a rest ih =>
    obtain ⟨h1, h2, h3, h4, h5, h6⟩ := ih (insert_image db (mkImageRow eid a))
    refine ⟨h1, h2, h3, h4, ?_, ?_⟩
    · rw [show insertImages eid (a :: rest) db
        = insertImages eid rest (insert_image db (mkImageRow eid a)) from rfl, h5]
      simp [insert_image]
      omega
    · rw [show insertImages eid (a :: rest) db
        = insertImages eid rest (insert_image db (mkImageRow eid a)) from rfl, h6]
      simp [insert_image, rowsOf]

theorem rowsOf_map_imgKey (eid nid : Nat) (arts : List CapturedImage) :
    (rowsOf eid nid arts).map imgKey = arts.map (fun a => (eid, a.image_index)) := by
  induction arts generalizing nid with
  | nil => rfl
  | cons a rest ih => simp [rowsOf, imgKey, mkImageRow, ih]

theorem rowsOf_map_id (eid nid : Nat) (arts : List CapturedImage) :
    (rowsOf eid nid arts).map (fun i => i.id) = List.range' nid arts.length := by
  induction arts generalizing nid with
  | nil => rfl
  | cons a rest ih => simp [rowsOf, List.range', ih]

theorem rowsOf_map_sha (eid nid : Nat) (arts : List CapturedImage) :
    (rowsOf eid nid arts).map (fun i => i.sha256_hex) = arts.map (fun a => a.sha256_hex) := by
  induction arts generalizing nid with
  | nil => rfl
  | cons a rest ih => simp [rowsOf, mkImageRow, ih]

theorem rowsOf_flags (eid nid : Nat) (arts : List CapturedImage) :
    ∀ r ∈ rowsOf eid nid arts,
      r.event_local_id = eid ∧ r.metadata_uploaded = false ∧ r.uploaded = false ∧
      r.corrupted = false ∧ r.local_exists = true ∧
      nid ≤ r.id ∧ r.id < nid + arts.length := by
  induction arts generalizing nid with
  | nil => intro r hr; simp [rowsOf] at hr
  | cons a rest ih =>
    intro r hr
    rcases List.mem_cons.mp hr with h | h
    · subst h
      refine ⟨rfl, rfl, rfl, rfl, rfl, le_refl _, ?_⟩
      simp [mkImageRow]
    · obtain ⟨g1, g2, g3, g4, g5, g6, g7⟩ := ih (nid + 1) r h
      refine ⟨g1, g2, g3, g4, g5, by omega, by simp; omega⟩

/-- Characterization of a capture tick whose camera call returned
artifacts. -/
theorem captureTick_ok (cfg : SysConfig) (o : CaptureOracle) (s : EdgeState)
    (fs2 : FS) (arts : List CapturedImage)
    (hcam : o.cam (s.event_counter + 1) cfg.burst_size s.fs = Except.ok (fs2, arts)) :
    (cfg.sensor_enabled = false →
      captureTick cfg o s =
        { db := insertImages (s.event_counter + 1) arts
            (insert_event s.db (mkEventRow cfg (s.event_counter + 1) o.now arts)),
          fs := fs2, event_counter := s.event_counter + 1,
          reading_counter := s.reading_counter }) ∧
    (∀ t h, cfg.sensor_enabled = true → o.sensorRead = Except.ok (t, h) →
      captureTick cfg o s =
        { db := insertImages (s.event_counter + 1) arts
            (insert_event
              (insert_sensor_reading s.db
                { reading_id := s.reading_counter + 1, crate_id := cfg.crate_id,
                  recorded_at := o.now, temperature_c := t, humidity_pct := h,
                  uploaded := false })
              (mkEventRow cfg (s.event_counter + 1) o.now arts)),
          fs := fs2, event_counter := s.event_counter + 1,
          reading_counter := s.reading_counter + 1 }) := by
  constructor
  · intro hs
    unfold captureTick
    simp [hs, hcam]
  · intro t h hs hr
    unfold captureTick
    simp [hs, hr, hcam]

theorem mockCaptureBurstAux_sha (H : List Nat → String) (bytesO : Nat → List Nat)
    (eid : Nat) (dir : String) (now : Int) :
    ∀ (k idx : Nat) (fs : FS),
      ∀ a ∈ (mockCaptureBurstAux H bytesO eid dir now idx k fs).2,
        a.sha256_hex = H (bytesO a.image_index) ∧
        a.size_bytes = (bytesO a.image_index).length := by
  intro k
  induction k with
  | zero => intro idx fs a ha; simp [mockCaptureBurstAux] at ha
  | succ n ih =>
    intro idx fs a ha
    have hd : (fsLookup (fsWrite fs (imagePath dir eid idx) (bytesO idx))
        (imagePath dir eid idx)).getD [] = bytesO idx := by
      rw [fsLookup_fsWrite_self]; rfl
    have hunfold : (mockCaptureBurstAux H bytesO eid dir now idx (n + 1) fs).2 =
        { image_index := idx, local_path := imagePath dir eid idx,
          size_bytes := ((fsLookup (fsWrite fs (imagePath dir eid idx) (bytesO idx))
            (imagePath dir eid idx)).getD []).length,
          sha256_hex := H ((fsLookup (fsWrite fs (imagePath dir eid idx) (bytesO idx))
            (imagePath dir eid idx)).getD []),
          width_px := 640, height_px := 480, format := "jpg", captured_at := now } ::
        (mockCaptureBurstAux H bytesO eid dir now (idx + 1) n
          (fsWrite fs (imagePath dir eid idx) (bytesO idx))).2 := rfl
    rw [hunfold] at ha
    rcases List.mem_cons.mp ha with h | h
    · subst h
      simp [hd]
    · exact ih (idx + 1) (fsWrite fs (imagePath dir eid idx) (bytesO idx)) a h

theorem mockCaptureBurstAux_indices (H : List Nat → String) (bytesO : Nat → List Nat)
    (eid : Nat) (dir : String) (now : Int) :
    ∀ (k idx : Nat) (fs : FS),
      ((mockCaptureBurstAux H bytesO eid dir now idx k fs).2).map (fun a => a.image_index) =
        List.range' idx k := by
  intro k
  induction k with
  | zero => intro idx fs; rfl
  | succ n ih =>
    intro idx fs
    have hunfold : (mockCaptureBurstAux H bytesO eid dir now idx (n + 1) fs).2 =
        { image_index := idx, local_path := imagePath dir eid idx,
          size_bytes := ((fsLookup (fsWrite fs (imagePath dir eid idx) (bytesO idx))
            (imagePath dir eid idx)).getD []).length,
          sha256_hex := H ((fsLookup (fsWrite fs (imagePath dir eid idx) (bytesO idx))
            (imagePath dir eid idx)).getD []),
          width_px := 640, height_px := 480, format := "jpg", captured_at := now } ::
        (mockCaptureBurstAux H bytesO eid dir now (idx + 1) n
          (fsWrite fs (imagePath dir eid idx) (bytesO idx))).2 := rfl
    rw [hunfold]
    simp [ih, List.range']

theorem rpiCollect_sha (H : List Nat → String) (eid : Nat) (dir : String)
    (now : Int) (fs : FS) :
    ∀ (k idx : Nat), ∀ a ∈ rpiCollect H eid dir now fs idx k,
      ∃ d, fsLookup fs a.local_path = some d ∧ a.sha256_hex = H d ∧
        a.size_bytes = d.length := by
  intro k
  induction k with
  | zero => intro idx a ha; simp [rpiCollect] at ha
  | succ n ih =>
    intro idx a ha
    rw [show rpiCollect H eid dir now fs idx (n + 1) =
      (match fsLookup fs (imagePath dir eid idx) with
       | none => rpiCollect H eid dir now fs (idx + 1) n
       | some data =>
         { image_index := idx, local_path := imagePath dir eid idx,
           size_bytes := data.length, sha256_hex := H data,
           width_px := 4056, height_px := 3040, format := "jpg",
           captured_at := now } :: rpiCollect H eid dir now fs (idx + 1) n) from rfl] at ha
    cases heq : fsLookup fs (imagePath dir eid idx) with
    | none =>
      rw [heq] at ha
      exact ih (idx + 1) a ha
    | some data =>
      rw [heq] at ha
      rcases List.mem_cons.mp ha with h | h
      · subst h
        exact ⟨data, heq, rfl, rfl⟩
      · exact ih (idx + 1) a h

theorem map_update_proj {β : Type} (l : List CapturedImageRecord)
    (c : CapturedImageRecord → Prop) [DecidablePred c]
    (g : CapturedImageRecord → CapturedImageRecord)
    (proj : CapturedImageRecord → β) (h : ∀ i, proj (g i) = proj i) :
    (l.map (fun i => if c i then g i else i)).map proj = l.map proj := by
  rw [List.map_map]
  apply List.map_congr_left
  intro a _
  by_cases hc : c a <;> simp [hc, h]

theorem processImageUploads_map_proj {β : Type} (o : SyncOracle) (fs : FS)
    (proj : CapturedImageRecord → β)
    (hU : ∀ i, proj { i with uploaded := true } = proj i)
    (hC : ∀ i, proj { i with corrupted := true } = proj i) :
    ∀ (batch : List CapturedImageRecord) (db : Database),
      ((processImageUploads o fs batch db).images).map proj = db.images.map proj := by
  intro batch
  induction batch with
  | nil => intro db; rfl
  | cons i rest ih =>
    intro db
    unfold processImageUploads
    by_cases hc : uploadImage (o.imgResult i.event_local_id i.image_index) fs i.local_path = true
    · rw [if_pos hc, ih]
      exact map_update_proj db.images _ _ proj hU
    · rw [if_neg hc, ih]
      exact map_update_proj db.images _ _ proj hC

theorem markEventsBatch_images_map_proj {β : Type} (proj : CapturedImageRecord → β)
    (hM : ∀ i, proj { i with metadata_uploaded := true } = proj i) :
    ∀ (batch : List CaptureEventRecord) (db : Database),
      ((markEventsBatch batch db).images).map proj = db.images.map proj := by
  intro batch
  induction batch with
  | nil => intro db; rfl
  | cons e rest ih =>
    intro db
    rw [show markEventsBatch (e :: rest) db =
      markEventsBatch rest (mark_image_metadata_uploaded (mark_event_uploaded db e.event_id) e.event_id) from rfl,
      ih]
    exact map_update_proj _ _ _ proj hM

theorem markReadingsBatch_images (batch : List SensorReadingRecord) (db : Database) :
    (markReadingsBatch batch db).images = db.images := by
  induction batch generalizing db with
  | nil => rfl
  | cons r rest ih =>
    rw [show markReadingsBatch (r :: rest) db =
      markReadingsBatch rest (mark_reading_uploaded db r.reading_id) from rfl, ih]
    rfl

theorem sensorSyncStep_images (o : SyncOracle) (db : Database) :
    (sensorSyncStep o db).images = db.images := by
  unfold sensorSyncStep
  by_cases h1 : (get_sensor_readings db 10).isEmpty = true
  · simp [h1]
  · by_cases h2 : o.sensorResult = true
    · simp [h1, h2, markReadingsBatch_images]
    · simp [h1, h2]

theorem metadataSyncStep_images_map_proj {β : Type} (o : SyncOracle) (db : Database)
    (proj : CapturedImageRecord → β)
    (hM : ∀ i, proj { i with metadata_uploaded := true } = proj i) :
    ((metadataSyncStep o db).images).map proj = db.images.map proj := by
  unfold metadataSyncStep
  by_cases h1 : (get_unsynced_events db 5).isEmpty = true
  · simp [h1]
  · by_cases h2 : o.metaResult = true
    · simp only [h1, h2, if_true, if_false, Bool.false_eq_true]
      exact markEventsBatch_images_map_proj proj hM _ _
    · simp [h1, h2]

theorem syncTick_images_map_proj {β : Type} (o : SyncOracle) (s : EdgeState)
    (proj : CapturedImageRecord → β)
    (hU : ∀ i, proj { i with uploaded := true } = proj i)
    (hC : ∀ i, proj { i with corrupted := true } = proj i)
    (hM : ∀ i, proj { i with metadata_uploaded := true } = proj i) :
    ((syncTick o s).db.images).map proj = (s.db.images).map proj := by
  show ((binarySyncStep o s.fs (sensorSyncStep o (metadataSyncStep o s.db))).images).map proj = _
  unfold binarySyncStep
  rw [processImageUploads_map_proj o s.fs proj hU hC, sensorSyncStep_images,
    metadataSyncStep_images_map_proj o s.db proj hM]

theorem processCandidates_map_proj {β : Type} (o : CleanupOracle)
    (proj : CapturedImageRecord → β)
    (hD : ∀ i, proj { i with local_exists := false } = proj i) :
    ∀ (cands : List CapturedImageRecord) (db : Database) (fs : FS),
      (((processCandidates o cands db fs).1).images).map proj = db.images.map proj := by
  intro cands
  induction cands with
  | nil => intro db fs; rfl
  | cons c rest ih =>
    intro db fs
    unfold processCandidates
    by_cases h1 : fsExists fs c.local_path = true
    · rw [if_pos h1]
      by_cases h2 : o.removeFails c.local_path = true
      · rw [if_pos h2, ih]
      · rw [if_neg h2, ih]
        exact map_update_proj _ _ _ proj hD
    · rw [if_neg h1, ih]
      exact map_update_proj _ _ _ proj hD

theorem cleanupTick_images_map_proj {β : Type} (cfg : SysConfig) (o : CleanupOracle)
    (s : EdgeState) (proj : CapturedImageRecord → β)
    (hD : ∀ i, proj { i with local_exists := false } = proj i) :
    ((cleanupTick cfg o s).db.images).map proj = (s.db.images).map proj := by
  unfold cleanupTick
  split
  · rfl
  · split
    · rfl
    · exact processCandidates_map_proj o proj hD _ _ _

theorem heartbeatTick_db_images (resp : Option (Option Int)) (s : EdgeState) :
    (heartbeatTick resp s).db.images = s.db.images := by
  unfold heartbeatTick
  cases resp with
  | none => rfl
  | some body => cases body with
    | none => rfl
    | some v => rfl

/-- Scenario configuration of spec §8: crate id 1, burst size 2, mock
camera. -/
def mockScenarioCfg : SysConfig :=
  { device_id := "device-001", crate_id := 1, camera_name := "camera_0",
    image_dir := "images", burst_size := 2, retention_days := 30,
    sensor_enabled := false }

/-- Capture oracle running the mock camera with fixed hash and image-byte
functions. -/
def mockScenarioOracle : CaptureOracle :=
  { now := 0, sensorRead := Except.ok (none, none),
    cam := fun eid burst fs =>
      Except.ok (mockCaptureBurst (fun _ => "feedc0de") (fun _ => [1, 2]) eid "images" burst 0 fs) }

/-- C8: the event row of a successful capture tick records as burst_size the
number of images the camera actually returned, and exactly one image row per
returned artifact is inserted, carrying the artifact's index; concretely, with
the mock camera, crate id 1, and requested burst size 2, capturing event 1
inserts the event row with burst_size 2 and exactly two image rows with
indices 0 and 1. -/
theorem claim_C8 :
    (∀ (cfg : SysConfig) (o : CaptureOracle) (s : EdgeState) (fs2 : FS)
        (arts : List CapturedImage),
      o.cam (s.event_counter + 1) cfg.burst_size s.fs = Except.ok (fs2, arts) →
      (cfg.sensor_enabled = false ∨
        (cfg.sensor_enabled = true ∧ ∃ t h, o.sensorRead = Except.ok (t, h))) →
      (captureTick cfg o s).db.events =
        s.db.events ++ [mkEventRow cfg (s.event_counter + 1) o.now arts] ∧
      (mkEventRow cfg (s.event_counter + 1) o.now arts).burst_size = arts.length ∧
      ((captureTick cfg o s).db.images).map imgKey =
        (s.db.images).map imgKey ++ arts.map (fun a => (s.event_counter + 1, a.image_index))) ∧
    ((captureTick mockScenarioCfg mockScenarioOracle (startService emptyDB [])).db.events.map
        (fun e => (e.event_id, e.crate_id, e.burst_size)) = [(1, 1, 2)] ∧
      ((captureTick mockScenarioCfg mockScenarioOracle (startService emptyDB [])).db.images).map
        imgKey = [(1, 0), (1, 1)]) := by
  constructor
  · intro cfg o s fs2 arts hcam hsens
    have hkey : ∀ db0 : Database,
        ((insertImages (s.event_counter + 1) arts
          (insert_event db0 (mkEventRow cfg (s.event_counter + 1) o.now arts))).images).map imgKey
        = db0.images.map imgKey ++ arts.map (fun a => (s.event_counter + 1, a.image_index)) := by
      intro db0
      obtain ⟨-, -, -, -, -, h6⟩ := insertImages_spec (s.event_counter + 1) arts
        (insert_event db0 (mkEventRow cfg (s.event_counter + 1) o.now arts))
      rw [h6]
      simp [insert_event, rowsOf_map_imgKey]
    have hev : ∀ db0 : Database,
        (insertImages (s.event_counter + 1) arts
          (insert_event db0 (mkEventRow cfg (s.event_counter + 1) o.now arts))).events
        = db0.events ++ [mkEventRow cfg (s.event_counter + 1) o.now arts] := by
      intro db0
      obtain ⟨-, h2, -, -, -, -⟩ := insertImages_spec (s.event_counter + 1) arts
        (insert_event db0 (mkEventRow cfg (s.event_counter + 1) o.now arts))
      rw [h2]
      rfl
    rcases hsens with hs | ⟨hs, t, h, hr⟩
    · rw [(captureTick_ok cfg o s fs2 arts hcam).1 hs]
      exact ⟨hev s.db, rfl, hkey s.db⟩
    · rw [(captureTick_ok cfg o s fs2 arts hcam).2 t h hs hr]
      refine ⟨?_, rfl, ?_⟩
      · rw [hev]; rfl
      · rw [hkey]; rfl
  · constructor
    · decide
    · decide

theorem claim_C8_witness :
    (captureTick mockScenarioCfg mockScenarioOracle (startService emptyDB [])).db.events =
      (startService emptyDB []).db.events ++
        [mkEventRow mockScenarioCfg 1 0
          (mockCaptureBurst (fun _ => "feedc0de") (fun _ => [1, 2]) 1 "images" 2 0 []).2] := by
  have h := (claim_C8.1 mockScenarioCfg mockScenarioOracle (startService emptyDB [])
    (mockCaptureBurst (fun _ => "feedc0de") (fun _ => [1, 2]) 1 "images" 2 0 []).1
    (mockCaptureBurst (fun _ => "feedc0de") (fun _ => [1, 2]) 1 "images" 2 0 []).2
    rfl (Or.inl rfl)).1
  exact h

/-- C6: the stored checksum is the hash of the bytes actually written at
capture time and is never recomputed or altered afterwards.  `H` abstracts
SHA-256 (lower-case hex digest) and `bytesO` the encoded image bytes; part one
is the mock camera (hash of the bytes it just wrote, read back from disk),
part two the Raspberry Pi camera (hash of the on-disk bytes libcamera-still
produced), part three shows a capture tick stores the artifact checksums
verbatim, and part four shows the sync, cleanup and heartbeat ticks leave
every image row's (id, checksum) pair unchanged — no later operation
recomputes or alters it. -/
theorem claim_C6 :
    (∀ (H : List Nat → String) (bytesO : Nat → List Nat) (eid : Nat) (dir : String)
        (burst : Nat) (now : Int) (fs : FS),
      ∀ a ∈ (mockCaptureBurst H bytesO eid dir burst now fs).2,
        a.sha256_hex = H (bytesO a.image_index) ∧
        a.size_bytes = (bytesO a.image_index).length) ∧
    (∀ (H : List Nat → String) (eid : Nat) (dir : String) (burst : Nat) (now : Int)
        (fs : FS),
      ∀ a ∈ rpiCaptureBurst H eid dir burst now fs,
        ∃ d, fsLookup fs a.local_path = some d ∧ a.sha256_hex = H d ∧
          a.size_bytes = d.length) ∧
    (∀ (cfg : SysConfig) (o : CaptureOracle) (s : EdgeState) (fs2 : FS)
        (arts : List CapturedImage),
      o.cam (s.event_counter + 1) cfg.burst_size s.fs = Except.ok (fs2, arts) →
      (cfg.sensor_enabled = false ∨
        (cfg.sensor_enabled = true ∧ ∃ t h, o.sensorRead = Except.ok (t, h))) →
      ((captureTick cfg o s).db.images).map (fun i => i.sha256_hex) =
        (s.db.images).map (fun i => i.sha256_hex) ++ arts.map (fun a => a.sha256_hex)) ∧
    (∀ (o : SyncOracle) (s : EdgeState),
      ((syncTick o s).db.images).map (fun i => (i.id, i.sha256_hex)) =
        (s.db.images).map (fun i => (i.id, i.sha256_hex))) ∧
    (∀ (cfg : SysConfig) (o : CleanupOracle) (s : EdgeState),
      ((cleanupTick cfg o s).db.images).map (fun i => (i.id, i.sha256_hex)) =
        (s.db.images).map (fun i => (i.id, i.sha256_hex))) ∧
    (∀ (resp : Option (Option Int)) (s : EdgeState),
      ((heartbeatTick resp s).db.images).map (fun i => (i.id, i.sha256_hex)) =
        (s.db.images).map (fun i => (i.id, i.sha256_hex))) := by
  refine ⟨?_, ?_, ?_, ?_, ?_, ?_⟩
  · intro H bytesO eid dir burst now fs a ha
    exact mockCaptureBurstAux_sha H bytesO eid dir now burst 0 fs a ha
  · intro H eid dir burst now fs a ha
    exact rpiCollect_sha H eid dir now fs burst 0 a ha
  · intro cfg o s fs2 arts hcam hsens
    have hsha : ∀ db0 : Database,
        ((insertImages (s.event_counter + 1) arts
          (insert_event db0 (mkEventRow cfg (s.event_counter + 1) o.now arts))).images).map
            (fun i => i.sha256_hex)
        = db0.images.map (fun i => i.sha256_hex) ++ arts.map (fun a => a.sha256_hex) := by
      intro db0
      obtain ⟨-, -, -, -, -, h6⟩ := insertImages_spec (s.event_counter + 1) arts
        (insert_event db0 (mkEventRow cfg (s.event_counter + 1) o.now arts))
      rw [h6]
      simp [insert_event, rowsOf_map_sha]
    rcases hsens with hs | ⟨hs, t, h, hr⟩
    · rw [(captureTick_ok cfg o s fs2 arts hcam).1 hs]
      exact hsha s.db
    · rw [(captureTick_ok cfg o s fs2 arts hcam).2 t h hs hr]
      rw [hsha]
      rfl
  · intro o s
    exact syncTick_images_map_proj o s _ (fun i => rfl) (fun i => rfl) (fun i => rfl)
  · intro cfg o s
    exact cleanupTick_images_map_proj cfg o s _ (fun i => rfl)
  · intro resp s
    rw [heartbeatTick_db_images]

/-- Concrete artifact produced by the mock camera in the C6 witness run. -/
def c6art : CapturedImage :=
  { image_index := 0, local_path := "images/00000001_000.jpg", size_bytes := 2,
    sha256_hex := "2", width_px := 640, height_px := 480, format := "jpg",
    captured_at := 0 }

theorem claim_C6_witness :
    c6art.sha256_hex =
      (fun b : List Nat => toString b.length) ((fun idx => [idx, idx]) c6art.image_index) :=
  (claim_C6.1 (fun b => toString b.length) (fun idx => [idx, idx]) 1 "images" 2 0 []
    c6art (by decide)).1

/-- Configuration for the C10 witness run (sensor enabled). -/
def c10cfg : SysConfig :=
  { device_id := "device-001", crate_id := 1, camera_name := "camera_0",
    image_dir := "images", burst_size := 2, retention_days := 30,
    sensor_enabled := true }

/-- Capture oracle for the C10 witness run: the sensor reads fine, the camera
raises. -/
def c10oracle : CaptureOracle :=
  { now := 0, sensorRead := Except.ok (some 21, some 55),
    cam := fun _ _ _ => Except.error () }

theorem claim_C10_witness :
    (captureTick c10cfg c10oracle (startService emptyDB [])).db.events =
      (startService emptyDB []).db.events ∧
    (captureTick c10cfg c10oracle (startService emptyDB [])).db.images =
      (startService emptyDB []).db.images ∧
    (captureTick c10cfg c10oracle (startService emptyDB [])).event_counter =
      (startService emptyDB []).event_counter + 1 := by
  have h := claim_C10 c10cfg c10oracle (startService emptyDB []) (some 21) (some 55)
    rfl rfl rfl
  exact ⟨h.2.1, h.2.2.1, h.2.2.2.2.1⟩

theorem fsExists_fsRemove_ne (fs : FS) (p q : String) (h : q ≠ p) :
    fsExists (fsRemove fs p) q = fsExists fs q := by
  unfold fsExists
  rw [fsLookup_fsRemove_ne fs p q h]

theorem mark_image_deleted_map_id (db : Database) (cid : Nat) :
    ((mark_image_deleted db cid).images).map (fun i => i.id) =
      db.images.map (fun i => i.id) :=
  map_update_proj db.images _ _ _ (fun _ => rfl)

theorem mem_mark_image_deleted (db : Database) (cid : Nat) (j : CapturedImageRecord)
    (hj : j ∈ db.images) (hne : j.id ≠ cid) : j ∈ (mark_image_deleted db cid).images := by
  have hfix : (fun i => if i.id = cid then { i with local_exists := false } else i) j = j :=
    if_neg hne
  have := List.mem_map_of_mem
    (fun i => if i.id = cid then { i with local_exists := false } else i) hj
  rw [hfix] at this
  exact this

/-- Provenance of the cleanup candidate loop: tables other than images are
untouched; every resulting image row is either an original row or an original
row with local_exists cleared whose identifier matched some candidate; paths
outside the candidate list keep their file contents. -/
theorem processCandidates_prov (o : CleanupOracle) :
    ∀ (cands : List CapturedImageRecord) (db : Database) (fs : FS),
      ((processCandidates o cands db fs).1.crates = db.crates ∧
       (processCandidates o cands db fs).1.events = db.events ∧
       (processCandidates o cands db fs).1.readings = db.readings ∧
       (processCandidates o cands db fs).1.state = db.state ∧
       (processCandidates o cands db fs).1.next_image_id = db.next_image_id) ∧
      (∀ r' ∈ (processCandidates o cands db fs).1.images,
        ∃ r ∈ db.images, r'.id = r.id ∧
          (r' = r ∨ (r' = { r with local_exists := false } ∧ ∃ c ∈ cands, c.id = r.id))) ∧
      (∀ p, (∀ c ∈ cands, c.local_path ≠ p) →
        fsLookup (processCandidates o cands db fs).2 p = fsLookup fs p) := by
  intro cands
  induction cands with
  | nil =>
    intro db fs
    refine ⟨⟨rfl, rfl, rfl, rfl, rfl⟩, ?_, ?_⟩
    · intro r' hr'
      exact ⟨r', hr', rfl, Or.inl rfl⟩
    · intro p _
      rfl
  | cons c rest ih =>
    intro db fs
    have hstep : ∀ (db1 : Database) (fs1 : FS),
        (∀ r1 ∈ db1.images, ∃ r ∈ db.images, r1.id = r.id ∧
          (r1 = r ∨ (r1 = { r with local_exists := false } ∧ c.id = r.id))) →
        db1.crates = db.crates → db1.events = db.events → db1.readings = db.readings →
        db1.state = db.state → db1.next_image_id = db.next_image_id →
        (∀ p, c.local_path ≠ p → fsLookup fs1 p = fsLookup fs p) →
        ((processCandidates o rest db1 fs1).1.crates = db.crates ∧
         (processCandidates o rest db1 fs1).1.events = db.events ∧
         (processCandidates o rest db1 fs1).1.readings = db.readings ∧
         (processCandidates o rest db1 fs1).1.state = db.state ∧
         (processCandidates o rest db1 fs1).1.next_image_id = db.next_image_id) ∧
        (∀ r' ∈ (processCandidates o rest db1 fs1).1.images,
          ∃ r ∈ db.images, r'.id = r.id ∧
            (r' = r ∨ (r' = { r with local_exists := false } ∧
              ∃ c2 ∈ c :: rest, c2.id = r.id))) ∧
        (∀ p, (∀ c2 ∈ c :: rest, c2.local_path ≠ p) →
          fsLookup (processCandidates o rest db1 fs1).2 p = fsLookup fs p) := by
      intro db1 fs1 hprov hc1 hc2 hc3 hc4 hc5 hfs
      obtain ⟨⟨t1, t2, t3, t4, t5⟩, hprov2, hfs2⟩ := ih db1 fs1
      refine ⟨⟨t1.trans hc1, t2.trans hc2, t3.trans hc3, t4.trans hc4, t5.trans hc5⟩, ?_, ?_⟩
      · intro r' hr'
        obtain ⟨r1, hr1, hid1, hcase1⟩ := hprov2 r' hr'
        obtain ⟨r, hr, hid0, hcase0⟩ := hprov r1 hr1
        refine ⟨r, hr, hid1.trans hid0, ?_⟩
        rcases hcase1 with h1 | ⟨h1, c2, hc2m, hc2id⟩
        · subst h1
          rcases hcase0 with h0 | ⟨h0, hcid⟩
          · exact Or.inl h0
          · exact Or.inr ⟨h0, c, List.mem_cons_self c rest, hcid⟩
        · rcases hcase0 with h0 | ⟨h0, hcid⟩
          · subst h0
            exact Or.inr ⟨h1, c2, List.mem_cons_of_mem c hc2m, hc2id.trans hid0⟩
          · subst h0
            exact Or.inr ⟨h1, c2, List.mem_cons_of_mem c hc2m, hc2id.trans hid0⟩
      · intro p hp
        have hrest : ∀ c2 ∈ rest, c2.local_path ≠ p :=
          fun c2 h => hp c2 (List.mem_cons_of_mem c h)
        rw [hfs2 p hrest]
        exact hfs p (hp c (List.mem_cons_self c rest))
    have hdel : ∀ r1 ∈ (mark_image_deleted db c.id).images,
        ∃ r ∈ db.images, r1.id = r.id ∧
          (r1 = r ∨ (r1 = { r with local_exists := false } ∧ c.id = r.id)) := by
      intro r1 hr1
      obtain ⟨r, hr, hfr⟩ := List.mem_map.mp hr1
      by_cases hid : r.id = c.id
      · rw [if_pos hid] at hfr
        exact ⟨r, hr, by rw [← hfr], Or.inr ⟨hfr.symm, hid.symm⟩⟩
      · rw [if_neg hid] at hfr
        exact ⟨r, hr, by rw [← hfr], Or.inl hfr.symm⟩
    unfold processCandidates
    by_cases h1 : fsExists fs c.local_path = true
    · rw [if_pos h1]
      by_cases h2 : o.removeFails c.local_path = true
      · rw [if_pos h2]
        exact hstep db fs (fun r1 hr1 => ⟨r1, hr1, rfl, Or.inl rfl⟩)
          rfl rfl rfl rfl rfl (fun p _ => rfl)
      · rw [if_neg h2]
        exact hstep (mark_image_deleted db c.id) (fsRemove fs c.local_path) hdel
          rfl rfl rfl rfl rfl
          (fun p hne => fsLookup_fsRemove_ne fs c.local_path p (fun e => hne e.symm))
    · rw [if_neg h1]
      exact hstep (mark_image_deleted db c.id) fs hdel
        rfl rfl rfl rfl rfl (fun p _ => rfl)

/-- Per-candidate outcome of the cleanup loop, under uniqueness of row
identifiers and of candidate paths: a candidate whose existing file fails to
be removed is left untouched, every other candidate is marked deleted. -/
theorem processCandidates_elem (o : CleanupOracle) :
    ∀ (cands : List CapturedImageRecord) (db : Database) (fs : FS),
      (db.images.map (fun i => i.id)).Nodup →
      (∀ c ∈ cands, c ∈ db.images) →
      ((cands.map (fun c => c.id)).Nodup) →
      ((cands.map (fun c => c.local_path)).Nodup) →
      ∀ c ∈ cands, ∀ r' ∈ (processCandidates o cands db fs).1.images, r'.id = c.id →
        r' = (if fsExists fs c.local_path && o.removeFails c.local_path then c
              else { c with local_exists := false }) := by
  intro cands
  induction cands with
  | nil =>
    intro db fs _ _ _ _ c hc
    exact absurd hc (List.not_mem_nil c)
  | cons c0 rest ih =>
    intro db fs hdbids hmem hcids hcpaths c hc r' hr' hrid
    have hinj := List.inj_on_of_nodup_map hdbids
    have hids0 : c0.id ∉ rest.map (fun c => c.id) := (List.nodup_cons.mp hcids).1
    have hpaths0 : c0.local_path ∉ rest.map (fun c => c.local_path) :=
      (List.nodup_cons.mp hcpaths).1
    rcases List.mem_cons.mp hc with hhead | htail
    · subst hhead
      -- the candidate under scrutiny is the head of the batch
      unfold processCandidates at hr'
      by_cases h1 : fsExists fs c.local_path = true
      · rw [if_pos h1] at hr'
        by_cases h2 : o.removeFails c.local_path = true
        · rw [if_pos h2] at hr'
          rw [h1, h2]
          obtain ⟨-, hprov, -⟩ := processCandidates_prov o rest db fs
          obtain ⟨r, hr, hid0, hcase⟩ := hprov r' hr'
          have hrc : r = c := hinj hr (hmem c (List.mem_cons_self c rest))
            (hid0.symm.trans hrid)
          subst hrc
          rcases hcase with h | ⟨h, c2, hc2m, hc2id⟩
          · simpa using h
          · have hmid : c2.id ∈ rest.map (fun x => x.id) :=
              List.mem_map_of_mem (fun x => x.id) hc2m
            rw [hc2id] at hmid
            exact absurd hmid hids0
        · rw [if_neg h2] at hr'
          rw [h1]
          simp only [Bool.true_and]
          rw [if_neg h2]
          obtain ⟨-, hprov, -⟩ := processCandidates_prov o rest (mark_image_deleted db c.id)
            (fsRemove fs c.local_path)
          obtain ⟨r1, hr1, hid1, hcase⟩ := hprov r' hr'
          obtain ⟨r, hr, hfr⟩ := List.mem_map.mp hr1
          have hrc : r = c := by
            apply hinj hr (hmem c (List.mem_cons_self c rest))
            by_cases hid : r.id = c.id
            · exact hid
            · rw [if_neg hid] at hfr
              rw [← hfr] at hid1
              exact hid1.symm.trans hrid
          rw [hrc] at hfr
          rw [if_pos rfl] at hfr
          subst hfr
          rcases hcase with h | ⟨h, c2, hc2m, hc2id⟩
          · exact h
          · have hmid : c2.id ∈ rest.map (fun x => x.id) :=
              List.mem_map_of_mem (fun x => x.id) hc2m
            have heq : c2.id = c.id := hc2id
            rw [heq] at hmid
            exact absurd hmid hids0
      · rw [if_neg h1] at hr'
        have hcond : ¬((fsExists fs c.local_path && o.removeFails c.local_path) = true) := by
          intro hcc
          rw [Bool.and_eq_true] at hcc
          exact h1 hcc.1
        rw [if_neg hcond]
        obtain ⟨-, hprov, -⟩ := processCandidates_prov o rest (mark_image_deleted db c.id) fs
        obtain ⟨r1, hr1, hid1, hcase⟩ := hprov r' hr'
        obtain ⟨r, hr, hfr⟩ := List.mem_map.mp hr1
        have hrc : r = c := by
          apply hinj hr (hmem c (List.mem_cons_self c rest))
          by_cases hid : r.id = c.id
          · exact hid
          · rw [if_neg hid] at hfr
            rw [← hfr] at hid1
            exact hid1.symm.trans hrid
        rw [hrc] at hfr
        rw [if_pos rfl] at hfr
        subst hfr
        rcases hcase with h | ⟨h, c2, hc2m, hc2id⟩
        · exact h
        · have hmid : c2.id ∈ rest.map (fun x => x.id) :=
            List.mem_map_of_mem (fun x => x.id) hc2m
          have heq : c2.id = c.id := hc2id
          rw [heq] at hmid
          exact absurd hmid hids0
    · -- the candidate is in the tail: transfer through the head step
      have hcpath_ne : c.local_path ≠ c0.local_path := by
        intro he
        apply hpaths0
        rw [← he]
        exact List.mem_map_of_mem (fun c => c.local_path) htail
      have hrest_ids : (rest.map (fun c => c.id)).Nodup := (List.nodup_cons.mp hcids).2
      have hrest_paths : (rest.map (fun c => c.local_path)).Nodup :=
        (List.nodup_cons.mp hcpaths).2
      have hdel_ids : ((mark_image_deleted db c0.id).images.map (fun i => i.id)).Nodup := by
        rw [mark_image_deleted_map_id]; exact hdbids
      have hdel_mem : ∀ c2 ∈ rest, c2 ∈ (mark_image_deleted db c0.id).images := by
        intro c2 h2
        apply mem_mark_image_deleted db c0.id c2 (hmem c2 (List.mem_cons_of_mem c0 h2))
        intro he
        apply hids0
        rw [← he]
        exact List.mem_map_of_mem (fun c => c.id) h2
      unfold processCandidates at hr'
      by_cases h1 : fsExists fs c0.local_path = true
      · rw [if_pos h1] at hr'
        by_cases h2 : o.removeFails c0.local_path = true
        · rw [if_pos h2] at hr'
          exact ih db fs hdbids (fun c2 h => hmem c2 (List.mem_cons_of_mem c0 h))
            hrest_ids hrest_paths c htail r' hr' hrid
        · rw [if_neg h2] at hr'
          have := ih (mark_image_deleted db c0.id) (fsRemove fs c0.local_path)
            hdel_ids hdel_mem hrest_ids hrest_paths c htail r' hr' hrid
          rwa [fsExists_fsRemove_ne fs c0.local_path c.local_path hcpath_ne] at this
      · rw [if_neg h1] at hr'
        exact ih (mark_image_deleted db c0.id) fs hdel_ids hdel_mem
          hrest_ids hrest_paths c htail r' hr' hrid

theorem get_cleanup_candidates_sublist (db : Database) (safeId retention now : Int)
    (limit : Nat) :
    List.Sublist (get_cleanup_candidates db safeId retention now limit) db.images :=
  List.Sublist.trans (List.take_sublist _ _) (List.filter_sublist _)

theorem mem_get_cleanup_candidates (db : Database) (safeId retention now : Int)
    (limit : Nat) :
    ∀ c ∈ get_cleanup_candidates db safeId retention now limit,
      c ∈ db.images ∧ c.local_exists = true ∧ (c.event_local_id : Int) ≤ safeId ∧
        c.captured_at < now - retention := by
  intro c hc
  have h1 : c ∈ db.images.filter (fun i =>
      i.local_exists && decide ((i.event_local_id : Int) ≤ safeId)
        && decide (i.captured_at < now - retention)) := List.mem_of_mem_take hc
  obtain ⟨hm, hcond⟩ := List.mem_filter.mp h1
  rw [Bool.and_eq_true, Bool.and_eq_true] at hcond
  exact ⟨hm, hcond.1.1, of_decide_eq_true hcond.1.2, of_decide_eq_true hcond.2⟩

/-- C1: on each cleanup tick, when the watermark key is absent from the
process-state table the tick is a no-op (no row flagged, no file removed,
whatever the retention age); when a watermark n is present, every image row
whose owning event identifier exceeds n survives the tick entirely unchanged,
and the contents of any path owned solely by such rows are untouched. -/
theorem claim_C1 (cfg : SysConfig) (o : CleanupOracle) (s : EdgeState)
    (hids : (s.db.images.map (fun i => i.id)).Nodup) :
    (get_state_value s.db watermarkKey = none → cleanupTick cfg o s = s) ∧
    (∀ w n, get_state_value s.db watermarkKey = some w → parseInt w = some n →
      (∀ i ∈ s.db.images, n < (i.event_local_id : Int) →
        ∀ i' ∈ (cleanupTick cfg o s).db.images, i'.id = i.id → i' = i) ∧
      (∀ p, (∀ i ∈ s.db.images, i.local_path = p → n < (i.event_local_id : Int)) →
        fsLookup (cleanupTick cfg o s).fs p = fsLookup s.fs p)) := by
  have hinj := List.inj_on_of_nodup_map hids
  constructor
  · intro h
    unfold cleanupTick
    rw [h]
  · intro w n hw hn
    have hct : cleanupTick cfg o s = { s with
        db := (processCandidates o
          (get_cleanup_candidates s.db n cfg.retention_days o.now 20) s.db s.fs).1,
        fs := (processCandidates o
          (get_cleanup_candidates s.db n cfg.retention_days o.now 20) s.db s.fs).2 } := by
      unfold cleanupTick
      simp only [hw, hn]
    obtain ⟨-, hprov, hfs⟩ := processCandidates_prov o
      (get_cleanup_candidates s.db n cfg.retention_days o.now 20) s.db s.fs
    constructor
    · intro i hi hhigh i' hi' hid
      rw [hct] at hi'
      obtain ⟨r, hr, hid0, hcase⟩ := hprov i' hi'
      have hri : r = i := hinj hr hi (hid0.symm.trans hid)
      subst hri
      rcases hcase with h | ⟨h, c, hcm, hcid⟩
      · exact h
      · obtain ⟨hcmem, -, hle, -⟩ := mem_get_cleanup_candidates s.db n cfg.retention_days
          o.now 20 c hcm
        have hcr : c = r := hinj hcmem hr hcid
        rw [hcr] at hle
        exact absurd hle (not_le.mpr hhigh)
    · intro p hp
      rw [hct]
      apply hfs
      intro c hcm he
      obtain ⟨hcmem, -, hle, -⟩ := mem_get_cleanup_candidates s.db n cfg.retention_days
        o.now 20 c hcm
      exact absurd hle (not_le.mpr (hp c hcmem he))

/-- Cleanup oracle for the C1 witness (removal never fails). -/
def c1oracle : CleanupOracle := { now := 100, removeFails := fun _ => false }

theorem claim_C1_witness :
    cleanupTick mockScenarioCfg c1oracle (startService emptyDB []) =
      startService emptyDB [] :=
  (claim_C1 mockScenarioCfg c1oracle (startService emptyDB []) (by decide)).1 rfl

/-- C9: with a parsed watermark in place, each cleanup candidate of the tick is
marked deleted (local_exists cleared, nothing else changed) regardless of
whether its file was on disk — except that a candidate whose existing file
fails to be removed is left entirely untouched, while the remaining candidates
of the batch are still processed (the conclusion holds for every candidate
independently of the other candidates' removal outcomes). -/
theorem claim_C9 (cfg : SysConfig) (o : CleanupOracle) (s : EdgeState) (w : String)
    (n : Int)
    (hw : get_state_value s.db watermarkKey = some w)
    (hn : parseInt w = some n)
    (hids : (s.db.images.map (fun i => i.id)).Nodup)
    (hpaths : ((get_cleanup_candidates s.db n cfg.retention_days o.now 20).map
      (fun c => c.local_path)).Nodup) :
    ∀ c ∈ get_cleanup_candidates s.db n cfg.retention_days o.now 20,
      ∀ i' ∈ (cleanupTick cfg o s).db.images, i'.id = c.id →
        ((fsExists s.fs c.local_path = true ∧ o.removeFails c.local_path = true →
            i' = c) ∧
         (fsExists s.fs c.local_path = false ∨ o.removeFails c.local_path = false →
            i' = { c with local_exists := false })) := by
  intro c hcm i' hi' hid
  have hct : cleanupTick cfg o s = { s with
      db := (processCandidates o
        (get_cleanup_candidates s.db n cfg.retention_days o.now 20) s.db s.fs).1,
      fs := (processCandidates o
        (get_cleanup_candidates s.db n cfg.retention_days o.now 20) s.db s.fs).2 } := by
    unfold cleanupTick
    simp only [hw, hn]
  rw [hct] at hi'
  have hsub := get_cleanup_candidates_sublist s.db n cfg.retention_days o.now 20
  have hcids : ((get_cleanup_candidates s.db n cfg.retention_days o.now 20).map
      (fun c => c.id)).Nodup :=
    List.Nodup.sublist (List.Sublist.map (fun c => c.id) hsub) hids
  have hmem : ∀ c2 ∈ get_cleanup_candidates s.db n cfg.retention_days o.now 20,
      c2 ∈ s.db.images := fun c2 h => List.Sublist.mem h hsub
  have h := processCandidates_elem o
    (get_cleanup_candidates s.db n cfg.retention_days o.now 20) s.db s.fs
    hids hmem hcids hpaths c hcm i' hi' hid
  constructor
  · intro ⟨h1, h2⟩
    rw [h1, h2] at h
    simpa using h
  · intro hcase
    have hcond : (fsExists s.fs c.local_path && o.removeFails c.local_path) = false := by
      rcases hcase with h1 | h2
      · rw [h1]; rfl
      · rw [h2, Bool.and_false]
    rw [hcond] at h
    simpa using h

/-- Image rows for the C9 witness: two cleanup-eligible rows on distinct
paths. -/
def c9img1 : CapturedImageRecord :=
  { id := 1, event_local_id := 1, image_index := 0, local_path := "imgs/a.jpg",
    captured_at := -100, size_bytes := 1, sha256_hex := "a1", width_px := 640,
    height_px := 480, format := "jpg", metadata_uploaded := true, uploaded := true,
    local_exists := true, corrupted := false }

def c9img2 : CapturedImageRecord :=
  { id := 2, event_local_id := 2, image_index := 0, local_path := "imgs/b.jpg",
    captured_at := -100, size_bytes := 1, sha256_hex := "b1", width_px := 640,
    height_px := 480, format := "jpg", metadata_uploaded := true, uploaded := true,
    local_exists := true, corrupted := false }

/-- Store contents for the C9 witness: watermark 5 present. -/
def c9db : Database :=
  { emptyDB with
    images := [c9img1, c9img2],
    state := [("delete_safe_up_to_event_id", "5")],
    next_image_id := 3 }

/-- State for the C9 witness: watermark 5 stored, both files on disk. -/
def c9state : EdgeState :=
  { db := c9db, fs := [("imgs/a.jpg", [0]), ("imgs/b.jpg", [0])],
    event_counter := 2, reading_counter := 0 }

/-- Cleanup oracle for the C9 witness: removing the first file raises, the
second succeeds. -/
def c9oracle : CleanupOracle := { now := 0, removeFails := fun p => p == "imgs/a.jpg" }

theorem claim_C9_witness :
    ((cleanupTick mockScenarioCfg c9oracle c9state).db.images.map
      (fun i => (i.id, i.local_exists)) = [(1, true), (2, false)]) ∧
    { c9img2 with local_exists := false } = { c9img2 with local_exists := false } :=
  ⟨by decide,
   (claim_C9 mockScenarioCfg c9oracle c9state "5" 5 (by decide) (by decide) (by decide)
      (by decide) c9img2 (by decide) { c9img2 with local_exists := false }
      (by decide) rfl).2 (Or.inr (by decide))⟩

theorem imgKey_eq_iff (i0 r : CapturedImageRecord) :
    (r.event_local_id = i0.event_local_id ∧ r.image_index = i0.image_index) ↔
      imgKey r = imgKey i0 := by
  simp [imgKey]

theorem mark_image_uploaded_images (db : Database) (eid idx : Nat) :
    (mark_image_uploaded db eid idx).images = db.images.map
      (fun i => if i.event_local_id = eid ∧ i.image_index = idx
        then { i with uploaded := true } else i) := rfl

theorem mark_image_corrupted_images (db : Database) (iid : Nat) :
    (mark_image_corrupted db iid).images = db.images.map
      (fun i => if i.id = iid then { i with corrupted := true } else i) := rfl

/-- Full characterization of the binary-upload loop: non-image tables are
untouched; every resulting image row is an original row, possibly with its
uploaded or corrupted flag newly set when it was a member of the batch; and
each batch member's row ends uploaded on a True result and corrupted on a
False result. -/
theorem processImageUploads_spec (o : SyncOracle) (fs : FS) :
    ∀ (batch : List CapturedImageRecord) (db : Database),
      (db.images.map (fun i => i.id)).Nodup →
      (db.images.map imgKey).Nodup →
      (∀ j ∈ batch, j ∈ db.images) →
      ((batch.map (fun i => i.id)).Nodup) →
      ((batch.map imgKey).Nodup) →
      ((processImageUploads o fs batch db).crates = db.crates ∧
       (processImageUploads o fs batch db).events = db.events ∧
       (processImageUploads o fs batch db).readings = db.readings ∧
       (processImageUploads o fs batch db).state = db.state ∧
       (processImageUploads o fs batch db).next_image_id = db.next_image_id) ∧
      (∀ r' ∈ (processImageUploads o fs batch db).images,
        ∃ r ∈ db.images, r'.id = r.id ∧
          (r' = r ∨ (r ∈ batch ∧
            (r' = { r with uploaded := true } ∨ r' = { r with corrupted := true })))) ∧
      (∀ i ∈ batch, ∀ r' ∈ (processImageUploads o fs batch db).images, r'.id = i.id →
        r' = (if uploadImage (o.imgResult i.event_local_id i.image_index) fs i.local_path
              then { i with uploaded := true } else { i with corrupted := true })) := by
  intro batch
  induction batch with
  | nil =>
    intro db _ _ _ _ _
    refine ⟨⟨rfl, rfl, rfl, rfl, rfl⟩, ?_, ?_⟩
    · intro r' hr'
      exact ⟨r', hr', rfl, Or.inl rfl⟩
    · intro i hi
      exact absurd hi (List.not_mem_nil i)
  | cons i0 rest ih =>
    intro db hdbids hdbkeys hmem hbids hbkeys
    have hinj := List.inj_on_of_nodup_map hdbids
    have hinjk := List.inj_on_of_nodup_map hdbkeys
    have hi0mem : i0 ∈ db.images := hmem i0 (List.mem_cons_self i0 rest)
    have hids0 : i0.id ∉ rest.map (fun i => i.id) := (List.nodup_cons.mp hbids).1
    have hkeys0 : imgKey i0 ∉ rest.map imgKey := (List.nodup_cons.mp hbkeys).1
    have hrest_ids : (rest.map (fun i => i.id)).Nodup := (List.nodup_cons.mp hbids).2
    have hrest_keys : (rest.map imgKey).Nodup := (List.nodup_cons.mp hbkeys).2
    -- common reasoning for the two possible single-row updates of the head step
    have main : ∀ (f : CapturedImageRecord → CapturedImageRecord) (db1 : Database),
        db1.images = db.images.map f →
        db1.crates = db.crates → db1.events = db.events → db1.readings = db.readings →
        db1.state = db.state → db1.next_image_id = db.next_image_id →
        (∀ i, (f i).id = i.id) → (∀ i, imgKey (f i) = imgKey i) →
        (∀ j ∈ rest, f j = j) →
        (∀ r ∈ db.images, f r = r ∨
          (r = i0 ∧ (f r = { r with uploaded := true } ∨ f r = { r with corrupted := true }))) →
        ((processImageUploads o fs rest db1).crates = db.crates ∧
         (processImageUploads o fs rest db1).events = db.events ∧
         (processImageUploads o fs rest db1).readings = db.readings ∧
         (processImageUploads o fs rest db1).state = db.state ∧
         (processImageUploads o fs rest db1).next_image_id = db.next_image_id) ∧
        (∀ r' ∈ (processImageUploads o fs rest db1).images,
          ∃ r ∈ db.images, r'.id = r.id ∧
            (r' = r ∨ (r ∈ i0 :: rest ∧
              (r' = { r with uploaded := true } ∨ r' = { r with corrupted := true })))) ∧
        (∀ r' ∈ (processImageUploads o fs rest db1).images, r'.id = i0.id → r' = f i0) ∧
        (∀ i ∈ rest, ∀ r' ∈ (processImageUploads o fs rest db1).images, r'.id = i.id →
          r' = (if uploadImage (o.imgResult i.event_local_id i.image_index) fs i.local_path
                then { i with uploaded := true } else { i with corrupted := true })) := by
      intro f db1 hdb1 hc1 hc2 hc3 hc4 hc5 hfid hfkey hfix hfr
      have hdb1ids : (db1.images.map (fun i => i.id)).Nodup := by
        rw [hdb1, List.map_map]
        have he : ((fun i => i.id) ∘ f) = (fun i => i.id) := funext fun i => hfid i
        rw [he]
        exact hdbids
      have hdb1keys : (db1.images.map imgKey).Nodup := by
        rw [hdb1, List.map_map]
        have he : (imgKey ∘ f) = imgKey := funext fun i => hfkey i
        rw [he]
        exact hdbkeys
      have hmem1 : ∀ j ∈ rest, j ∈ db1.images := by
        intro j hj
        rw [hdb1]
        have hjm := List.mem_map_of_mem f (hmem j (List.mem_cons_of_mem i0 hj))
        rwa [hfix j hj] at hjm
      obtain ⟨⟨t1, t2, t3, t4, t5⟩, hprov, helem⟩ :=
        ih db1 hdb1ids hdb1keys hmem1 hrest_ids hrest_keys
      refine ⟨⟨t1.trans hc1, t2.trans hc2, t3.trans hc3, t4.trans hc4, t5.trans hc5⟩,
        ?_, ?_, helem⟩
      · intro r' hr'
        obtain ⟨r1, hr1, hid1, hcase1⟩ := hprov r' hr'
        rcases hcase1 with h1 | ⟨h1mem, h1m⟩
        · -- untouched by the tail: the head step decides
          subst h1
          rw [hdb1] at hr1
          obtain ⟨r, hr, hfr2⟩ := List.mem_map.mp hr1
          rcases hfr r hr with h0 | ⟨hri0, h0⟩
          · rw [← hfr2, h0]
            exact ⟨r, hr, rfl, Or.inl rfl⟩
          · subst hri0
            refine ⟨r, hr, ?_, Or.inr ⟨List.mem_cons_self r rest, ?_⟩⟩
            · rw [← hfr2, hfid r]
            · rw [← hfr2]
              exact h0
        · -- marked by the tail: r1 is an original row of the tail
          have hr1db : r1 ∈ db.images := hmem r1 (List.mem_cons_of_mem i0 h1mem)
          exact ⟨r1, hr1db, hid1, Or.inr ⟨List.mem_cons_of_mem i0 h1mem, h1m⟩⟩
      · -- rows carrying the head identifier end exactly as the head step left them
        intro r' hr' hid
        obtain ⟨r1, hr1, hid1, hcase1⟩ := hprov r' hr'
        rcases hcase1 with h1 | ⟨h1mem, h1m⟩
        · subst h1
          rw [hdb1] at hr1
          obtain ⟨r, hr, hfr2⟩ := List.mem_map.mp hr1
          have hri0 : r = i0 := by
            apply hinj hr hi0mem
            rw [← hfr2, hfid r] at hid
            exact hid
          rw [← hfr2, hri0]
        · exfalso
          apply hids0
          have hmid : r1.id ∈ rest.map (fun i => i.id) :=
            List.mem_map_of_mem (fun i => i.id) h1mem
          rw [← hid1, hid] at hmid
          exact hmid
    -- case split on the head upload result
    unfold processImageUploads
    by_cases hu : uploadImage (o.imgResult i0.event_local_id i0.image_index) fs
        i0.local_path = true
    · rw [if_pos hu]
      obtain ⟨ht, hprov, hhead, helem⟩ := main
        (fun r => if r.event_local_id = i0.event_local_id ∧ r.image_index = i0.image_index
          then { r with uploaded := true } else r)
        (mark_image_uploaded db i0.event_local_id i0.image_index)
        (mark_image_uploaded_images db i0.event_local_id i0.image_index)
        rfl rfl rfl rfl rfl
        (fun i => by by_cases hc : i.event_local_id = i0.event_local_id ∧
            i.image_index = i0.image_index <;> simp [hc])
        (fun i => by by_cases hc : i.event_local_id = i0.event_local_id ∧
            i.image_index = i0.image_index <;> simp [hc, imgKey])
        (fun j hj => by
          have hkne : imgKey j ≠ imgKey i0 := by
            intro he
            exact hkeys0 (he ▸ List.mem_map_of_mem imgKey hj)
          exact if_neg (fun hc => hkne ((imgKey_eq_iff i0 j).mp hc)))
        (fun r hr => by
          by_cases hc : r.event_local_id = i0.event_local_id ∧
              r.image_index = i0.image_index
          · exact Or.inr ⟨hinjk hr hi0mem ((imgKey_eq_iff i0 r).mp hc),
              Or.inl (if_pos hc)⟩
          · exact Or.inl (if_neg hc))
      refine ⟨ht, hprov, ?_⟩
      intro i hi r' hr' hid
      rcases List.mem_cons.mp hi with hh | htl
      · subst hh
        rw [if_pos hu]
        have hfi : (if i.event_local_id = i.event_local_id ∧ i.image_index = i.image_index
            then { i with uploaded := true } else i) = { i with uploaded := true } :=
          if_pos ⟨rfl, rfl⟩
        rw [← hfi]
        exact hhead r' hr' hid
      · exact helem i htl r' hr' hid
    · rw [if_neg hu]
      obtain ⟨ht, hprov, hhead, helem⟩ := main
        (fun r => if r.id = i0.id then { r with corrupted := true } else r)
        (mark_image_corrupted db i0.id)
        (mark_image_corrupted_images db i0.id)
        rfl rfl rfl rfl rfl
        (fun i => by by_cases hc : i.id = i0.id <;> simp [hc])
        (fun i => by by_cases hc : i.id = i0.id <;> simp [hc, imgKey])
        (fun j hj => by
          have hine : j.id ≠ i0.id := by
            intro he
            exact hids0 (he ▸ List.mem_map_of_mem (fun i => i.id) hj)
          exact if_neg hine)
        (fun r hr => by
          by_cases hc : r.id = i0.id
          · exact Or.inr ⟨hinj hr hi0mem hc, Or.inr (if_pos hc)⟩
          · exact Or.inl (if_neg hc))
      refine ⟨ht, hprov, ?_⟩
      intro i hi r' hr' hid
      rcases List.mem_cons.mp hi with hh | htl
      · subst hh
        rw [if_neg hu]
        have hfi : (if i.id = i.id then { i with corrupted := true } else i)
            = { i with corrupted := true } := if_pos rfl
        rw [← hfi]
        exact hhead r' hr' hid
      · exact helem i htl r' hr' hid

theorem get_unsynced_images_sublist (db : Database) (limit : Nat) :
    List.Sublist (get_unsynced_images db limit) db.images :=
  List.Sublist.trans (List.take_sublist _ _) (List.filter_sublist _)

theorem mem_get_unsynced_images (db : Database) (limit : Nat) :
    ∀ i ∈ get_unsynced_images db limit,
      i ∈ db.images ∧ i.metadata_uploaded = true ∧ i.uploaded = false ∧
        i.corrupted = false := by
  intro i hi
  have h1 : i ∈ db.images.filter
      (fun i => i.metadata_uploaded && !i.uploaded && !i.corrupted) :=
    List.mem_of_mem_take hi
  obtain ⟨hm, hcond⟩ := List.mem_filter.mp h1
  rw [Bool.and_eq_true, Bool.and_eq_true] at hcond
  refine ⟨hm, hcond.1.1, ?_, ?_⟩
  · have h2 := hcond.1.2
    rwa [Bool.not_eq_true'] at h2
  · have h2 := hcond.2
    rwa [Bool.not_eq_true'] at h2

/-- Image row for the C3 counterexample: metadata uploaded, binary pending. -/
def c3img : CapturedImageRecord :=
  { id := 1, event_local_id := 3, image_index := 0, local_path := "imgs/3_0.jpg",
    captured_at := 0, size_bytes := 1, sha256_hex := "h3", width_px := 640,
    height_px := 480, format := "jpg", metadata_uploaded := true, uploaded := false,
    local_exists := true, corrupted := false }

/-- State for the C3 counterexample: one binary-pending image, its file on
disk. -/
def c3state : EdgeState :=
  { db := { emptyDB with images := [c3img], next_image_id := 2 },
    fs := [("imgs/3_0.jpg", [9])], event_counter := 3, reading_counter := 0 }

/-- Sync oracle for the C3 counterexample: the binary PUT fails with a pure
network error (never reaches the server). -/
def c3oracle : SyncOracle :=
  { metaResult := true, sensorResult := true,
    imgResult := fun _ _ => ImgUploadResult.transportError }

/-- C3 counterexample: a pure network/transport failure of the binary upload
does NOT leave the image's flags unchanged for a retry — the sync tick marks
the image corrupted, because SyncClient.upload_image collapses every exception
into the same False return that src/main.py sync_loop treats as a rejection. -/
theorem claim_C3_cex :
    c3oracle.imgResult 3 0 = ImgUploadResult.transportError ∧
    c3state.db.images.map (fun i => (i.uploaded, i.corrupted)) = [(false, false)] ∧
    (syncTick c3oracle c3state).db.images.map (fun i => (i.uploaded, i.corrupted)) =
      [(false, true)] :=
  ⟨rfl, by decide, by decide⟩

/-- C3 (amended): in the binary image upload sub-step every failure —
network/transport error, server-side rejection, or unreadable local file — is
indistinguishable in SyncClient.upload_image's Bool result (first conjunct),
and any False result immediately and permanently marks that image corrupted;
only a fully successful upload marks it uploaded (second conjunct).  No failed
binary upload is left for a retry. -/
theorem claim_C3 (o : SyncOracle) (fs : FS) (db : Database)
    (hids : (db.images.map (fun i => i.id)).Nodup)
    (hkeys : (db.images.map imgKey).Nodup) :
    (∀ p, uploadImage ImgUploadResult.transportError fs p = false ∧
          uploadImage ImgUploadResult.rejected fs p = false) ∧
    (∀ i ∈ get_unsynced_images db 3, ∀ r' ∈ (binarySyncStep o fs db).images,
      r'.id = i.id →
      r' = (if uploadImage (o.imgResult i.event_local_id i.image_index) fs i.local_path
            then { i with uploaded := true } else { i with corrupted := true })) := by
  constructor
  · intro p
    constructor <;> (unfold uploadImage; cases fsLookup fs p <;> rfl)
  · intro i hi r' hr' hid
    have hsub := get_unsynced_images_sublist db 3
    obtain ⟨-, -, helem⟩ := processImageUploads_spec o fs (get_unsynced_images db 3) db
      hids hkeys (fun j hj => List.Sublist.mem hj hsub)
      (List.Nodup.sublist (List.Sublist.map _ hsub) hids)
      (List.Nodup.sublist (List.Sublist.map _ hsub) hkeys)
    exact helem i hi r' hr' hid

theorem claim_C3_witness :
    { c3img with corrupted := true } =
      (if uploadImage (c3oracle.imgResult c3img.event_local_id c3img.image_index)
          c3state.fs c3img.local_path
        then { c3img with uploaded := true } else { c3img with corrupted := true }) :=
  (claim_C3 c3oracle c3state.fs c3state.db (by decide) (by decide)).2
    c3img (by decide) { c3img with corrupted := true } (by decide) rfl

theorem markEventsBatch_events_mono (eid : Nat) :
    ∀ (batch : List CaptureEventRecord) (db : Database),
      (∀ e ∈ db.events, e.event_id = eid → e.uploaded = true) →
      ∀ e' ∈ (markEventsBatch batch db).events, e'.event_id = eid → e'.uploaded = true := by
  intro batch
  induction batch with
  | nil => intro db h; exact h
  | cons e0 rest ih =>
    intro db h
    rw [show markEventsBatch (e0 :: rest) db = markEventsBatch rest
      (mark_image_metadata_uploaded (mark_event_uploaded db e0.event_id) e0.event_id) from rfl]
    apply ih
    intro e he heid
    have : (mark_image_metadata_uploaded (mark_event_uploaded db e0.event_id)
        e0.event_id).events = (mark_event_uploaded db e0.event_id).events := rfl
    rw [this] at he
    obtain ⟨e1, he1, hfe⟩ := List.mem_map.mp he
    by_cases hc : e1.event_id = e0.event_id
    · rw [if_pos hc] at hfe
      rw [← hfe]
    · rw [if_neg hc] at hfe
      subst hfe
      exact h e1 he1 heid

theorem markEventsBatch_images_mono (eid : Nat) :
    ∀ (batch : List CaptureEventRecord) (db : Database),
      (∀ i ∈ db.images, i.event_local_id = eid → i.metadata_uploaded = true) →
      ∀ i' ∈ (markEventsBatch batch db).images, i'.event_local_id = eid →
        i'.metadata_uploaded = true := by
  intro batch
  induction batch with
  | nil => intro db h; exact h
  | cons e0 rest ih =>
    intro db h
    rw [show markEventsBatch (e0 :: rest) db = markEventsBatch rest
      (mark_image_metadata_uploaded (mark_event_uploaded db e0.event_id) e0.event_id) from rfl]
    apply ih
    intro i hi heid
    have himg : (mark_image_metadata_uploaded (mark_event_uploaded db e0.event_id)
        e0.event_id).images = db.images.map
          (fun i => if i.event_local_id = e0.event_id
            then { i with metadata_uploaded := true } else i) := rfl
    rw [himg] at hi
    obtain ⟨i1, hi1, hfi⟩ := List.mem_map.mp hi
    by_cases hc : i1.event_local_id = e0.event_id
    · rw [if_pos hc] at hfi
      rw [← hfi]
    · rw [if_neg hc] at hfi
      subst hfi
      exact h i1 hi1 heid

theorem markEventsBatch_marks :
    ∀ (batch : List CaptureEventRecord) (db : Database), ∀ b ∈ batch,
      (∀ e' ∈ (markEventsBatch batch db).events, e'.event_id = b.event_id →
        e'.uploaded = true) ∧
      (∀ i' ∈ (markEventsBatch batch db).images, i'.event_local_id = b.event_id →
        i'.metadata_uploaded = true) := by
  intro batch
  induction batch with
  | nil => intro db b hb; exact absurd hb (List.not_mem_nil b)
  | cons e0 rest ih =>
    intro db b hb
    rw [show markEventsBatch (e0 :: rest) db = markEventsBatch rest
      (mark_image_metadata_uploaded (mark_event_uploaded db e0.event_id) e0.event_id) from rfl]
    rcases List.mem_cons.mp hb with hh | htl
    · subst hh
      constructor
      · apply markEventsBatch_events_mono
        intro e he heid
        have : (mark_image_metadata_uploaded (mark_event_uploaded db b.event_id)
            b.event_id).events = (mark_event_uploaded db b.event_id).events := rfl
        rw [this] at he
        obtain ⟨e1, he1, hfe⟩ := List.mem_map.mp he
        by_cases hc : e1.event_id = b.event_id
        · rw [if_pos hc] at hfe
          rw [← hfe]
        · rw [if_neg hc] at hfe
          subst hfe
          exact absurd heid hc
      · apply markEventsBatch_images_mono
        intro i hi heid
        have himg : (mark_image_metadata_uploaded (mark_event_uploaded db b.event_id)
            b.event_id).images = db.images.map
              (fun i => if i.event_local_id = b.event_id
                then { i with metadata_uploaded := true } else i) := rfl
        rw [himg] at hi
        obtain ⟨i1, hi1, hfi⟩ := List.mem_map.mp hi
        by_cases hc : i1.event_local_id = b.event_id
        · rw [if_pos hc] at hfi
          rw [← hfi]
        · rw [if_neg hc] at hfi
          subst hfi
          exact absurd heid hc
    · exact ih _ b htl

/-- C4: when the metadata upload call for a batch of unsynced events succeeds,
the same (atomic) sub-step marks every event of the batch uploaded and every
image of every event of the batch metadata-uploaded; when the call fails the
sub-step is the identity — no event or image flag changes — so the very same
rows are selected again on the next tick. -/
theorem claim_C4 (o : SyncOracle) (db : Database) :
    (o.metaResult = true →
      ∀ e ∈ get_unsynced_events db 5,
        (∀ e' ∈ (metadataSyncStep o db).events, e'.event_id = e.event_id →
          e'.uploaded = true) ∧
        (∀ i' ∈ (metadataSyncStep o db).images, i'.event_local_id = e.event_id →
          i'.metadata_uploaded = true)) ∧
    (o.metaResult = false →
      metadataSyncStep o db = db ∧
      get_unsynced_events (metadataSyncStep o db) 5 = get_unsynced_events db 5) := by
  constructor
  · intro hres e he
    have hnil : get_unsynced_events db 5 ≠ [] := List.ne_nil_of_mem he
    have hcond : ¬((get_unsynced_events db 5).isEmpty = true) := by
      intro h
      exact hnil (List.isEmpty_iff.mp h)
    have hstep : metadataSyncStep o db = markEventsBatch (get_unsynced_events db 5) db := by
      unfold metadataSyncStep
      rw [if_neg hcond, if_pos hres]
    rw [hstep]
    exact markEventsBatch_marks (get_unsynced_events db 5) db e he
  · intro hres
    have hstep : metadataSyncStep o db = db := by
      unfold metadataSyncStep
      by_cases h1 : (get_unsynced_events db 5).isEmpty = true
      · rw [if_pos h1]
      · rw [if_neg h1, if_neg (by rw [hres]; exact Bool.false_ne_true)]
    exact ⟨hstep, by rw [hstep]⟩

/-- Event row for the C4 witness. -/
def c4event : CaptureEventRecord :=
  { event_id := 1, crate_id := 1, camera_name := "camera_0", captured_at := 0,
    burst_size := 1, uploaded := false }

/-- Image row for the C4 witness. -/
def c4img : CapturedImageRecord :=
  { id := 1, event_local_id := 1, image_index := 0, local_path := "imgs/1_0.jpg",
    captured_at := 0, size_bytes := 1, sha256_hex := "h1", width_px := 640,
    height_px := 480, format := "jpg", metadata_uploaded := false, uploaded := false,
    local_exists := true, corrupted := false }

/-- Store for the C4 witness: one unsynced event with one image. -/
def c4db : Database :=
  { emptyDB with events := [c4event], images := [c4img], next_image_id := 2 }

/-- Sync oracle for the C4 witness: the metadata upload succeeds. -/
def c4oracle : SyncOracle :=
  { metaResult := true, sensorResult := true,
    imgResult := fun _ _ => ImgUploadResult.accepted }

theorem claim_C4_witness :
    ((metadataSyncStep c4oracle c4db).events.map (fun e => e.uploaded) = [true]) ∧
    ((metadataSyncStep c4oracle c4db).images.map (fun i => i.metadata_uploaded) = [true]) ∧
    ({ c4event with uploaded := true }).uploaded = true :=
  ⟨by decide, by decide,
   ((claim_C4 c4oracle c4db).1 rfl c4event (by decide)).1
     { c4event with uploaded := true } (by decide) rfl⟩

theorem metadataSyncStep_cases (o : SyncOracle) (db : Database) :
    metadataSyncStep o db = db ∨
    metadataSyncStep o db = markEventsBatch (get_unsynced_events db 5) db := by
  unfold metadataSyncStep
  by_cases h1 : (get_unsynced_events db 5).isEmpty = true
  · rw [if_pos h1]
    exact Or.inl rfl
  · rw [if_neg h1]
    by_cases h2 : o.metaResult = true
    · rw [if_pos h2]
      exact Or.inr rfl
    · rw [if_neg h2]
      exact Or.inl rfl

theorem sensorSyncStep_cases (o : SyncOracle) (db : Database) :
    sensorSyncStep o db = db ∨
    sensorSyncStep o db = markReadingsBatch (get_sensor_readings db 10) db := by
  unfold sensorSyncStep
  by_cases h1 : (get_sensor_readings db 10).isEmpty = true
  · rw [if_pos h1]
    exact Or.inl rfl
  · rw [if_neg h1]
    by_cases h2 : o.sensorResult = true
    · rw [if_pos h2]
      exact Or.inr rfl
    · rw [if_neg h2]
      exact Or.inl rfl

theorem cleanupTick_cases (cfg : SysConfig) (o : CleanupOracle) (s : EdgeState) :
    cleanupTick cfg o s = s ∨
    ∃ n : Int, cleanupTick cfg o s = { s with
      db := (processCandidates o
        (get_cleanup_candidates s.db n cfg.retention_days o.now 20) s.db s.fs).1,
      fs := (processCandidates o
        (get_cleanup_candidates s.db n cfg.retention_days o.now 20) s.db s.fs).2 } := by
  unfold cleanupTick
  split
  · exact Or.inl rfl
  · split
    · exact Or.inl rfl
    · exact Or.inr ⟨_, rfl⟩

theorem heartbeatTick_cases (resp : Option (Option Int)) (s : EdgeState) :
    heartbeatTick resp s = s ∨
    ∃ v : Int, heartbeatTick resp s =
      { s with db := set_state_value s.db watermarkKey (toString v) } := by
  unfold heartbeatTick
  cases resp with
  | none => exact Or.inl rfl
  | some body => cases body with
    | none => exact Or.inl rfl
    | some v => exact Or.inr ⟨v, rfl⟩

theorem markEventsBatch_events (batch : List CaptureEventRecord) (db : Database) :
    ∀ e' ∈ (markEventsBatch batch db).events,
      ∃ e ∈ db.events, e'.event_id = e.event_id ∧ (e' = e ∨ e'.uploaded = true) := by
  induction batch generalizing db with
  | nil => intro e' he'; exact ⟨e', he', rfl, Or.inl rfl⟩
  | cons e0 rest ih =>
    intro e' he'
    rw [show markEventsBatch (e0 :: rest) db = markEventsBatch rest
      (mark_image_metadata_uploaded (mark_event_uploaded db e0.event_id) e0.event_id)
      from rfl] at he'
    obtain ⟨e1, he1, heid, hcase⟩ := ih _ e' he'
    have : (mark_image_metadata_uploaded (mark_event_uploaded db e0.event_id)
        e0.event_id).events = (mark_event_uploaded db e0.event_id).events := rfl
    rw [this] at he1
    obtain ⟨e, he, hfe⟩ := List.mem_map.mp he1
    by_cases hc : e.event_id = e0.event_id
    · rw [if_pos hc] at hfe
      subst hfe
      rcases hcase with h | h
      · exact ⟨e, he, heid, Or.inr (by rw [h])⟩
      · exact ⟨e, he, heid, Or.inr h⟩
    · rw [if_neg hc] at hfe
      subst hfe
      exact ⟨e, he, heid, hcase⟩

theorem markEventsBatch_images_pointwise (batch : List CaptureEventRecord)
    (db : Database) :
    ∀ i' ∈ (markEventsBatch batch db).images,
      ∃ i ∈ db.images, i'.id = i.id ∧ i'.corrupted = i.corrupted ∧
        i'.uploaded = i.uploaded ∧ i'.event_local_id = i.event_local_id := by
  induction batch generalizing db with
  | nil => intro i' hi'; exact ⟨i', hi', rfl, rfl, rfl, rfl⟩
  | cons e0 rest ih =>
    intro i' hi'
    rw [show markEventsBatch (e0 :: rest) db = markEventsBatch rest
      (mark_image_metadata_uploaded (mark_event_uploaded db e0.event_id) e0.event_id)
      from rfl] at hi'
    obtain ⟨i1, hi1, h1, h2, h3, h4⟩ := ih _ i' hi'
    have himg : (mark_image_metadata_uploaded (mark_event_uploaded db e0.event_id)
        e0.event_id).images = db.images.map
          (fun i => if i.event_local_id = e0.event_id
            then { i with metadata_uploaded := true } else i) := rfl
    rw [himg] at hi1
    obtain ⟨i, hi, hfi⟩ := List.mem_map.mp hi1
    by_cases hc : i.event_local_id = e0.event_id
    · rw [if_pos hc] at hfi
      subst hfi
      exact ⟨i, hi, h1, h2, h3, h4⟩
    · rw [if_neg hc] at hfi
      subst hfi
      exact ⟨i, hi, h1, h2, h3, h4⟩

theorem metadataSyncStep_images_pointwise (o : SyncOracle) (db : Database) :
    ∀ i' ∈ (metadataSyncStep o db).images,
      ∃ i ∈ db.images, i'.id = i.id ∧ i'.corrupted = i.corrupted ∧
        i'.uploaded = i.uploaded ∧ i'.event_local_id = i.event_local_id := by
  rcases metadataSyncStep_cases o db with h | h <;> rw [h]
  · intro i' hi'
    exact ⟨i', hi', rfl, rfl, rfl, rfl⟩
  · exact markEventsBatch_images_pointwise _ db

theorem markReadingsBatch_readings (batch : List SensorReadingRecord) (db : Database) :
    ∀ r' ∈ (markReadingsBatch batch db).readings,
      ∃ r ∈ db.readings, r'.reading_id = r.reading_id ∧ (r' = r ∨ r'.uploaded = true) := by
  induction batch generalizing db with
  | nil => intro r' hr'; exact ⟨r', hr', rfl, Or.inl rfl⟩
  | cons r0 rest ih =>
    intro r' hr'
    rw [show markReadingsBatch (r0 :: rest) db = markReadingsBatch rest
      (mark_reading_uploaded db r0.reading_id) from rfl] at hr'
    obtain ⟨r1, hr1, hid, hcase⟩ := ih _ r' hr'
    obtain ⟨r, hr, hfr⟩ := List.mem_map.mp hr1
    by_cases hc : r.reading_id = r0.reading_id
    · rw [if_pos hc] at hfr
      subst hfr
      rcases hcase with h | h
      · exact ⟨r, hr, hid, Or.inr (by rw [h])⟩
      · exact ⟨r, hr, hid, Or.inr h⟩
    · rw [if_neg hc] at hfr
      subst hfr
      exact ⟨r, hr, hid, hcase⟩

theorem markEventsBatch_events_map_proj {β : Type} (proj : CaptureEventRecord → β)
    (hU : ∀ e, proj { e with uploaded := true } = proj e) :
    ∀ (batch : List CaptureEventRecord) (db : Database),
      ((markEventsBatch batch db).events).map proj = db.events.map proj := by
  intro batch
  induction batch with
  | nil => intro db; rfl
  | cons e0 rest ih =>
    intro db
    rw [show markEventsBatch (e0 :: rest) db = markEventsBatch rest
      (mark_image_metadata_uploaded (mark_event_uploaded db e0.event_id) e0.event_id)
      from rfl, ih]
    show ((mark_event_uploaded db e0.event_id).events).map proj = _
    rw [show (mark_event_uploaded db e0.event_id).events = db.events.map
      (fun e => if e.event_id = e0.event_id then { e with uploaded := true } else e)
      from rfl, List.map_map]
    apply List.map_congr_left
    intro e _
    show proj (if e.event_id = e0.event_id then { e with uploaded := true } else e) = proj e
    by_cases hc : e.event_id = e0.event_id
    · rw [if_pos hc]
      exact hU e
    · rw [if_neg hc]

theorem markReadingsBatch_readings_map_proj {β : Type} (proj : SensorReadingRecord → β)
    (hU : ∀ r, proj { r with uploaded := true } = proj r) :
    ∀ (batch : List SensorReadingRecord) (db : Database),
      ((markReadingsBatch batch db).readings).map proj = db.readings.map proj := by
  intro batch
  induction batch with
  | nil => intro db; rfl
  | cons r0 rest ih =>
    intro db
    rw [show markReadingsBatch (r0 :: rest) db = markReadingsBatch rest
      (mark_reading_uploaded db r0.reading_id) from rfl, ih]
    show (db.readings.map _).map proj = _
    rw [List.map_map]
    apply List.map_congr_left
    intro r _
    show proj (if r.reading_id = r0.reading_id then { r with uploaded := true } else r) = proj r
    by_cases hc : r.reading_id = r0.reading_id
    · rw [if_pos hc]
      exact hU r
    · rw [if_neg hc]

theorem processImageUploads_events (o : SyncOracle) (fs : FS) :
    ∀ (batch : List CapturedImageRecord) (db : Database),
      (processImageUploads o fs batch db).events = db.events ∧
      (processImageUploads o fs batch db).readings = db.readings ∧
      (processImageUploads o fs batch db).state = db.state ∧
      (processImageUploads o fs batch db).crates = db.crates ∧
      (processImageUploads o fs batch db).next_image_id = db.next_image_id := by
  intro batch
  induction batch with
  | nil => intro db; exact ⟨rfl, rfl, rfl, rfl, rfl⟩
  | cons i0 rest ih =>
    intro db
    unfold processImageUploads
    by_cases hc : uploadImage (o.imgResult i0.event_local_id i0.image_index) fs
        i0.local_path = true
    · rw [if_pos hc]
      exact ih _
    · rw [if_neg hc]
      exact ih _

theorem markEventsBatch_tables (batch : List CaptureEventRecord) (db : Database) :
    (markEventsBatch batch db).readings = db.readings ∧
    (markEventsBatch batch db).state = db.state ∧
    (markEventsBatch batch db).crates = db.crates ∧
    (markEventsBatch batch db).next_image_id = db.next_image_id := by
  induction batch generalizing db with
  | nil => exact ⟨rfl, rfl, rfl, rfl⟩
  | cons e0 rest ih =>
    rw [show markEventsBatch (e0 :: rest) db = markEventsBatch rest
      (mark_image_metadata_uploaded (mark_event_uploaded db e0.event_id) e0.event_id)
      from rfl]
    exact ih _

theorem markReadingsBatch_tables (batch : List SensorReadingRecord) (db : Database) :
    (markReadingsBatch batch db).events = db.events ∧
    (markReadingsBatch batch db).images = db.images ∧
    (markReadingsBatch batch db).state = db.state ∧
    (markReadingsBatch batch db).crates = db.crates ∧
    (markReadingsBatch batch db).next_image_id = db.next_image_id := by
  induction batch generalizing db with
  | nil => exact ⟨rfl, rfl, rfl, rfl, rfl⟩
  | cons r0 rest ih =>
    rw [show markReadingsBatch (r0 :: rest) db = markReadingsBatch rest
      (mark_reading_uploaded db r0.reading_id) from rfl]
    exact ih _

/-- The inductive well-formedness invariant of reachable agent states: the
allocation counters dominate every stored identifier, all identifiers and
image keys are unique, every image row belongs to a stored event, and a
corrupted image row is never marked uploaded. -/
structure WF (s : EdgeState) : Prop where
  events_nodup : (s.db.events.map (fun e => e.event_id)).Nodup
  events_le : ∀ e ∈ s.db.events, e.event_id ≤ s.event_counter
  readings_nodup : (s.db.readings.map (fun r => r.reading_id)).Nodup
  readings_le : ∀ r ∈ s.db.readings, r.reading_id ≤ s.reading_counter
  img_ids_nodup : (s.db.images.map (fun i => i.id)).Nodup
  img_ids_lt : ∀ i ∈ s.db.images, i.id < s.db.next_image_id
  img_keys_nodup : (s.db.images.map imgKey).Nodup
  img_event_mem : ∀ i ∈ s.db.images, ∃ e ∈ s.db.events, e.event_id = i.event_local_id
  corrupted_terminal : ∀ i ∈ s.db.images, i.corrupted = true → i.uploaded = false

theorem le_maxEventId (db : Database) : ∀ e ∈ db.events, e.event_id ≤ maxEventId db := by
  unfold maxEventId
  induction db.events with
  | nil => intro e he; exact absurd he (List.not_mem_nil e)
  | cons a t ih =>
    intro e he
    rcases List.mem_cons.mp he with hh | ht
    · subst hh
      exact le_max_left _ _
    · exact le_trans (ih e ht) (le_max_right _ _)

theorem le_maxReadingId (db : Database) :
    ∀ r ∈ db.readings, r.reading_id ≤ maxReadingId db := by
  unfold maxReadingId
  induction db.readings with
  | nil => intro r hr; exact absurd hr (List.not_mem_nil r)
  | cons a t ih =>
    intro r hr
    rcases List.mem_cons.mp hr with hh | ht
    · subst hh
      exact le_max_left _ _
    · exact le_trans (ih r ht) (le_max_right _ _)

theorem WF_startService_empty (fs : FS) : WF (startService emptyDB fs) := by
  constructor <;> simp [startService, emptyDB]

theorem WF_restart (s : EdgeState) (h : WF s) : WF (startService s.db s.fs) := by
  constructor
  · exact h.events_nodup
  · exact le_maxEventId s.db
  · exact h.readings_nodup
  · exact le_maxReadingId s.db
  · exact h.img_ids_nodup
  · exact h.img_ids_lt
  · exact h.img_keys_nodup
  · exact h.img_event_mem
  · exact h.corrupted_terminal

theorem WF_heartbeat (resp : Option (Option Int)) (s : EdgeState) (h : WF s) :
    WF (heartbeatTick resp s) := by
  rcases heartbeatTick_cases resp s with he | ⟨v, he⟩ <;> rw [he]
  · exact h
  · constructor
    · exact h.events_nodup
    · exact h.events_le
    · exact h.readings_nodup
    · exact h.readings_le
    · exact h.img_ids_nodup
    · exact h.img_ids_lt
    · exact h.img_keys_nodup
    · exact h.img_event_mem
    · exact h.corrupted_terminal

/-- Well-formedness of the state committed by a successful capture tick, for
any base store that keeps the events, images and image counter of `s` and
whose readings respect the new reading counter. -/
theorem WF_commit (cfg : SysConfig) (s : EdgeState) (h : WF s) (db0 : Database)
    (rc : Nat) (now : Int) (fs2 : FS) (arts : List CapturedImage)
    (hev : db0.events = s.db.events) (himg : db0.images = s.db.images)
    (hnid : db0.next_image_id = s.db.next_image_id)
    (hrn : (db0.readings.map (fun r => r.reading_id)).Nodup)
    (hrl : ∀ r ∈ db0.readings, r.reading_id ≤ rc)
    (hnodup : (arts.map (fun a => a.image_index)).Nodup) :
    WF { db := (insertImages (s.event_counter + 1) arts
          (insert_event db0 (mkEventRow cfg (s.event_counter + 1) now arts))),
         fs := fs2, event_counter := s.event_counter + 1, reading_counter := rc } := by
  obtain ⟨i1, i2, i3, i4, i5, i6⟩ := insertImages_spec (s.event_counter + 1) arts
    (insert_event db0 (mkEventRow cfg (s.event_counter + 1) now arts))
  have hev2 : (insert_event db0 (mkEventRow cfg (s.event_counter + 1) now arts)).events
      = s.db.events ++ [mkEventRow cfg (s.event_counter + 1) now arts] := by
    show db0.events ++ _ = _
    rw [hev]
  have himg2 : (insert_event db0 (mkEventRow cfg (s.event_counter + 1) now arts)).images
      = s.db.images := himg
  have hnid2 : (insert_event db0
      (mkEventRow cfg (s.event_counter + 1) now arts)).next_image_id
      = s.db.next_image_id := hnid
  have hrd2 : (insert_event db0 (mkEventRow cfg (s.event_counter + 1) now arts)).readings
      = db0.readings := rfl
  rw [hev2] at i2
  rw [hrd2] at i3
  rw [hnid2] at i5
  rw [himg2, hnid2] at i6
  constructor
  · show ((insertImages _ arts _).events.map (fun e => e.event_id)).Nodup
    rw [i2, List.map_append, List.nodup_append]
    refine ⟨h.events_nodup, List.nodup_singleton _, ?_⟩
    intro x hx hx2
    simp only [List.map_cons, List.map_nil, List.mem_singleton] at hx2
    obtain ⟨e, he, heid⟩ := List.mem_map.mp hx
    have : x ≤ s.event_counter := heid ▸ h.events_le e he
    rw [hx2] at this
    simp [mkEventRow] at this
  · intro e he
    show e.event_id ≤ s.event_counter + 1
    rw [i2] at he
    rcases List.mem_append.mp he with hm | hm
    · exact le_trans (h.events_le e hm) (Nat.le_succ _)
    · rw [List.mem_singleton.mp hm]
      exact le_refl _
  · show ((insertImages _ arts _).readings.map (fun r => r.reading_id)).Nodup
    rw [i3]
    exact hrn
  · intro r hr
    rw [i3] at hr
    exact hrl r hr
  · show ((insertImages _ arts _).images.map (fun i => i.id)).Nodup
    rw [i6, List.map_append, rowsOf_map_id, List.nodup_append]
    refine ⟨h.img_ids_nodup, List.nodup_range' _ _, ?_⟩
    intro x hx hx2
    obtain ⟨i, hi, hiid⟩ := List.mem_map.mp hx
    have hlt : x < s.db.next_image_id := hiid ▸ h.img_ids_lt i hi
    have hge : s.db.next_image_id ≤ x := (List.mem_range'_1.mp hx2).1
    omega
  · intro i hi
    show i.id < (insertImages _ arts _).next_image_id
    rw [i5]
    rw [i6] at hi
    rcases List.mem_append.mp hi with hm | hm
    · have := h.img_ids_lt i hm
      omega
    · obtain ⟨-, -, -, -, -, -, hlt⟩ := rowsOf_flags _ _ arts i hm
      exact hlt
  · show ((insertImages _ arts _).images.map imgKey).Nodup
    rw [i6, List.map_append, rowsOf_map_imgKey, List.nodup_append]
    refine ⟨h.img_keys_nodup, ?_, ?_⟩
    · rw [show arts.map (fun a => (s.event_counter + 1, a.image_index)) =
        (arts.map (fun a => a.image_index)).map
          (fun x => (s.event_counter + 1, x)) from by rw [List.map_map]; rfl]
      apply List.Nodup.map _ hnodup
      intro x y hxy
      exact (Prod.mk.injEq _ _ _ _).mp hxy |>.2
    · intro x hx hx2
      obtain ⟨i, hi, hik⟩ := List.mem_map.mp hx
      obtain ⟨e, he, heid⟩ := h.img_event_mem i hi
      have hle : x.1 ≤ s.event_counter := by
        rw [← hik]
        show i.event_local_id ≤ s.event_counter
        rw [← heid]
        exact h.events_le e he
      obtain ⟨a, ha, hak⟩ := List.mem_map.mp hx2
      have : x.1 = s.event_counter + 1 := by rw [← hak]
      omega
  · intro i hi
    rw [i6] at hi
    rcases List.mem_append.mp hi with hm | hm
    · obtain ⟨e, he, heid⟩ := h.img_event_mem i hm
      refine ⟨e, ?_, heid⟩
      show e ∈ (insertImages _ arts _).events
      rw [i2]
      exact List.mem_append_left _ he
    · obtain ⟨heid, -, -, -, -, -, -⟩ := rowsOf_flags _ _ arts i hm
      refine ⟨mkEventRow cfg (s.event_counter + 1) now arts, ?_, ?_⟩
      · show _ ∈ (insertImages _ arts _).events
        rw [i2]
        exact List.mem_append_right _ (List.mem_singleton.mpr rfl)
      · show (mkEventRow cfg (s.event_counter + 1) now arts).event_id = i.event_local_id
        rw [heid]
        rfl
  · intro i hi hc
    rw [i6] at hi
    rcases List.mem_append.mp hi with hm | hm
    · exact h.corrupted_terminal i hm hc
    · obtain ⟨-, -, -, hcf, -, -, -⟩ := rowsOf_flags _ _ arts i hm
      rw [hcf] at hc
      exact absurd hc (by decide)

theorem WF_bump (s : EdgeState) (h : WF s) (ec rc : Nat) (hec : s.event_counter ≤ ec)
    (hrc : s.reading_counter ≤ rc) :
    WF { s with event_counter := ec, reading_counter := rc } := by
  constructor
  · exact h.events_nodup
  · intro e he
    exact le_trans (h.events_le e he) hec
  · exact h.readings_nodup
  · intro r hr
    exact le_trans (h.readings_le r hr) hrc
  · exact h.img_ids_nodup
  · exact h.img_ids_lt
  · exact h.img_keys_nodup
  · exact h.img_event_mem
  · exact h.corrupted_terminal

theorem WF_insert_reading (s : EdgeState) (h : WF s) (r0 : SensorReadingRecord)
    (hr0 : r0.reading_id = s.reading_counter + 1) :
    ((insert_sensor_reading s.db r0).readings.map (fun r => r.reading_id)).Nodup ∧
    (∀ r ∈ (insert_sensor_reading s.db r0).readings,
      r.reading_id ≤ s.reading_counter + 1) := by
  constructor
  · show ((s.db.readings ++ [r0]).map _).Nodup
    rw [List.map_append, List.nodup_append]
    refine ⟨h.readings_nodup, List.nodup_singleton _, ?_⟩
    intro x hx hx2
    simp only [List.map_cons, List.map_nil, List.mem_singleton] at hx2
    obtain ⟨r, hr, hrid⟩ := List.mem_map.mp hx
    have hle : x ≤ s.reading_counter := hrid ▸ h.readings_le r hr
    rw [hx2, hr0] at hle
    omega
  · intro r hr
    rcases List.mem_append.mp hr with hm | hm
    · exact le_trans (h.readings_le r hm) (Nat.le_succ _)
    · rw [List.mem_singleton.mp hm, hr0]

theorem WF_capture (cfg : SysConfig) (o : CaptureOracle) (s : EdgeState) (h : WF s)
    (hcam : ∀ fs2 arts,
      o.cam (s.event_counter + 1) cfg.burst_size s.fs = Except.ok (fs2, arts) →
      (arts.map (fun a => a.image_index)).Nodup) :
    WF (captureTick cfg o s) := by
  unfold captureTick
  by_cases hs : cfg.sensor_enabled = true
  · rw [if_pos hs]
    cases hsr : o.sensorRead with
    | error e => exact WF_bump s h _ _ (Nat.le_succ _) (Nat.le_succ _)
    | ok pr =>
      obtain ⟨t, hum⟩ := pr
      cases hc : o.cam (s.event_counter + 1) cfg.burst_size s.fs with
      | error e =>
        obtain ⟨hn, hl⟩ := WF_insert_reading s h
          { reading_id := s.reading_counter + 1, crate_id := cfg.crate_id,
            recorded_at := o.now, temperature_c := t, humidity_pct := hum,
            uploaded := false } rfl
        constructor
        · exact h.events_nodup
        · intro e2 he2
          exact le_trans (h.events_le e2 he2) (Nat.le_succ _)
        · exact hn
        · exact hl
        · exact h.img_ids_nodup
        · exact h.img_ids_lt
        · exact h.img_keys_nodup
        · exact h.img_event_mem
        · exact h.corrupted_terminal
      | ok pr2 =>
        obtain ⟨fs2, arts⟩ := pr2
        obtain ⟨hn, hl⟩ := WF_insert_reading s h
          { reading_id := s.reading_counter + 1, crate_id := cfg.crate_id,
            recorded_at := o.now, temperature_c := t, humidity_pct := hum,
            uploaded := false } rfl
        exact WF_commit cfg s h _ (s.reading_counter + 1) o.now fs2 arts
          rfl rfl rfl hn hl (hcam fs2 arts hc)
  · rw [if_neg hs]
    cases hc : o.cam (s.event_counter + 1) cfg.burst_size s.fs with
    | error e => exact WF_bump s h _ s.reading_counter (Nat.le_succ _) (le_refl _)
    | ok pr2 =>
      obtain ⟨fs2, arts⟩ := pr2
      exact WF_commit cfg s h s.db s.reading_counter o.now fs2 arts
        rfl rfl rfl h.readings_nodup h.readings_le (hcam fs2 arts hc)

theorem WF_cleanup (cfg : SysConfig) (o : CleanupOracle) (s : EdgeState) (h : WF s) :
    WF (cleanupTick cfg o s) := by
  rcases cleanupTick_cases cfg o s with he | ⟨n, he⟩ <;> rw [he]
  · exact h
  · obtain ⟨⟨t1, t2, t3, t4, t5⟩, hprov, -⟩ := processCandidates_prov o
      (get_cleanup_candidates s.db n cfg.retention_days o.now 20) s.db s.fs
    have hidm := processCandidates_map_proj o (fun i => i.id) (fun i => rfl)
      (get_cleanup_candidates s.db n cfg.retention_days o.now 20) s.db s.fs
    have hkeym := processCandidates_map_proj o imgKey (fun i => rfl)
      (get_cleanup_candidates s.db n cfg.retention_days o.now 20) s.db s.fs
    constructor
    · show (((processCandidates o _ s.db s.fs).1).events.map _).Nodup
      rw [t2]
      exact h.events_nodup
    · intro e he2
      have he3 : e ∈ ((processCandidates o
          (get_cleanup_candidates s.db n cfg.retention_days o.now 20) s.db s.fs).1).events :=
        he2
      rw [t2] at he3
      exact h.events_le e he3
    · show (((processCandidates o _ s.db s.fs).1).readings.map _).Nodup
      rw [t3]
      exact h.readings_nodup
    · intro r hr2
      have hr3 : r ∈ ((processCandidates o
          (get_cleanup_candidates s.db n cfg.retention_days o.now 20) s.db s.fs).1).readings :=
        hr2
      rw [t3] at hr3
      exact h.readings_le r hr3
    · show (((processCandidates o _ s.db s.fs).1).images.map _).Nodup
      rw [hidm]
      exact h.img_ids_nodup
    · intro i hi
      obtain ⟨r, hr, hid, hcase⟩ := hprov i hi
      show i.id < ((processCandidates o _ s.db s.fs).1).next_image_id
      rw [t5, hid]
      exact h.img_ids_lt r hr
    · show (((processCandidates o _ s.db s.fs).1).images.map imgKey).Nodup
      rw [hkeym]
      exact h.img_keys_nodup
    · intro i hi
      obtain ⟨r, hr, hid, hcase⟩ := hprov i hi
      obtain ⟨e, he, heid⟩ := h.img_event_mem r hr
      have hevl : i.event_local_id = r.event_local_id := by
        rcases hcase with hcc | ⟨hcc, -⟩ <;> rw [hcc]
      refine ⟨e, ?_, by rw [hevl]; exact heid⟩
      show e ∈ ((processCandidates o _ s.db s.fs).1).events
      rw [t2]
      exact he
    · intro i hi hc
      obtain ⟨r, hr, hid, hcase⟩ := hprov i hi
      have hflags : i.corrupted = r.corrupted ∧ i.uploaded = r.uploaded := by
        rcases hcase with hcc | ⟨hcc, -⟩ <;> rw [hcc] <;> exact ⟨rfl, rfl⟩
      rw [hflags.1] at hc
      rw [hflags.2]
      exact h.corrupted_terminal r hr hc

theorem metadataSyncStep_tables (o : SyncOracle) (db : Database) :
    (metadataSyncStep o db).readings = db.readings ∧
    (metadataSyncStep o db).state = db.state ∧
    (metadataSyncStep o db).next_image_id = db.next_image_id := by
  rcases metadataSyncStep_cases o db with h | h <;> rw [h]
  · exact ⟨rfl, rfl, rfl⟩
  · obtain ⟨a, b, c, d⟩ := markEventsBatch_tables (get_unsynced_events db 5) db
    exact ⟨a, b, d⟩

theorem metadataSyncStep_events_map_proj {β : Type} (o : SyncOracle) (db : Database)
    (proj : CaptureEventRecord → β)
    (hU : ∀ e, proj { e with uploaded := true } = proj e) :
    ((metadataSyncStep o db).events).map proj = db.events.map proj := by
  rcases metadataSyncStep_cases o db with h | h <;> rw [h]
  exact markEventsBatch_events_map_proj proj hU (get_unsynced_events db 5) db

theorem metadataSyncStep_events_pointwise (o : SyncOracle) (db : Database) :
    ∀ e' ∈ (metadataSyncStep o db).events, ∃ e ∈ db.events, e'.event_id = e.event_id := by
  rcases metadataSyncStep_cases o db with h | h <;> rw [h]
  · intro e' he'
    exact ⟨e', he', rfl⟩
  · intro e' he'
    obtain ⟨e, he, heid, -⟩ := markEventsBatch_events (get_unsynced_events db 5) db e' he'
    exact ⟨e, he, heid⟩

theorem sensorSyncStep_tables (o : SyncOracle) (db : Database) :
    (sensorSyncStep o db).events = db.events ∧
    (sensorSyncStep o db).state = db.state ∧
    (sensorSyncStep o db).crates = db.crates ∧
    (sensorSyncStep o db).next_image_id = db.next_image_id := by
  rcases sensorSyncStep_cases o db with h | h <;> rw [h]
  · exact ⟨rfl, rfl, rfl, rfl⟩
  · obtain ⟨a, b, c, d, e⟩ := markReadingsBatch_tables (get_sensor_readings db 10) db
    exact ⟨a, c, d, e⟩

theorem sensorSyncStep_readings_map_proj {β : Type} (o : SyncOracle) (db : Database)
    (proj : SensorReadingRecord → β)
    (hU : ∀ r, proj { r with uploaded := true } = proj r) :
    ((sensorSyncStep o db).readings).map proj = db.readings.map proj := by
  rcases sensorSyncStep_cases o db with h | h <;> rw [h]
  exact markReadingsBatch_readings_map_proj proj hU (get_sensor_readings db 10) db

theorem sensorSyncStep_readings_pointwise (o : SyncOracle) (db : Database) :
    ∀ r' ∈ (sensorSyncStep o db).readings,
      ∃ r ∈ db.readings, r'.reading_id = r.reading_id := by
  rcases sensorSyncStep_cases o db with h | h <;> rw [h]
  · intro r' hr'
    exact ⟨r', hr', rfl⟩
  · intro r' hr'
    obtain ⟨r, hr, hid, -⟩ := markReadingsBatch_readings (get_sensor_readings db 10) db r' hr'
    exact ⟨r, hr, hid⟩

theorem WF_sync (o : SyncOracle) (s : EdgeState) (h : WF s) : WF (syncTick o s) := by
  have himg21 : (sensorSyncStep o (metadataSyncStep o s.db)).images
      = (metadataSyncStep o s.db).images := sensorSyncStep_images o _
  have hidm1 : ((metadataSyncStep o s.db).images).map (fun i => i.id)
      = s.db.images.map (fun i => i.id) :=
    metadataSyncStep_images_map_proj o s.db _ (fun i => rfl)
  have hkeym1 : ((metadataSyncStep o s.db).images).map imgKey = s.db.images.map imgKey :=
    metadataSyncStep_images_map_proj o s.db imgKey (fun i => rfl)
  have hids2 : (((sensorSyncStep o (metadataSyncStep o s.db)).images).map
      (fun i => i.id)).Nodup := by
    rw [himg21, hidm1]
    exact h.img_ids_nodup
  have hkeys2 : (((sensorSyncStep o (metadataSyncStep o s.db)).images).map imgKey).Nodup := by
    rw [himg21, hkeym1]
    exact h.img_keys_nodup
  have hsub := get_unsynced_images_sublist (sensorSyncStep o (metadataSyncStep o s.db)) 3
  obtain ⟨-, hprov, -⟩ := processImageUploads_spec o s.fs
    (get_unsynced_images (sensorSyncStep o (metadataSyncStep o s.db)) 3)
    (sensorSyncStep o (metadataSyncStep o s.db)) hids2 hkeys2
    (fun j hj => List.Sublist.mem hj hsub)
    (List.Nodup.sublist (List.Sublist.map _ hsub) hids2)
    (List.Nodup.sublist (List.Sublist.map _ hsub) hkeys2)
  obtain ⟨hbev, hbrd, hbst, hbcr, hbnid⟩ := processImageUploads_events o s.fs
    (get_unsynced_images (sensorSyncStep o (metadataSyncStep o s.db)) 3)
    (sensorSyncStep o (metadataSyncStep o s.db))
  obtain ⟨hsev, hsst, hscr, hsnid⟩ := sensorSyncStep_tables o (metadataSyncStep o s.db)
  obtain ⟨hmrd, hmst, hmnid⟩ := metadataSyncStep_tables o s.db
  have hbimg_id := processImageUploads_map_proj o s.fs (fun i => i.id)
    (fun i => rfl) (fun i => rfl)
    (get_unsynced_images (sensorSyncStep o (metadataSyncStep o s.db)) 3)
    (sensorSyncStep o (metadataSyncStep o s.db))
  have hbimg_key := processImageUploads_map_proj o s.fs imgKey
    (fun i => rfl) (fun i => rfl)
    (get_unsynced_images (sensorSyncStep o (metadataSyncStep o s.db)) 3)
    (sensorSyncStep o (metadataSyncStep o s.db))
  have hev_map : ((syncTick o s).db.events).map (fun e => e.event_id)
      = s.db.events.map (fun e => e.event_id) := by
    show ((binarySyncStep o s.fs (sensorSyncStep o (metadataSyncStep o s.db))).events).map _
      = _
    unfold binarySyncStep
    rw [hbev, hsev]
    exact metadataSyncStep_events_map_proj o s.db _ (fun e => rfl)
  constructor
  · rw [hev_map]
    exact h.events_nodup
  · intro e he
    have he2 : e ∈ (binarySyncStep o s.fs
        (sensorSyncStep o (metadataSyncStep o s.db))).events := he
    unfold binarySyncStep at he2
    rw [hbev, hsev] at he2
    obtain ⟨e0, he0, heid⟩ := metadataSyncStep_events_pointwise o s.db e he2
    show e.event_id ≤ s.event_counter
    rw [heid]
    exact h.events_le e0 he0
  · show (((binarySyncStep o s.fs
      (sensorSyncStep o (metadataSyncStep o s.db))).readings).map _).Nodup
    unfold binarySyncStep
    rw [hbrd]
    rw [sensorSyncStep_readings_map_proj o (metadataSyncStep o s.db)
      (fun r => r.reading_id) (fun r => rfl), hmrd]
    exact h.readings_nodup
  · intro r hr
    have hr2 : r ∈ (binarySyncStep o s.fs
        (sensorSyncStep o (metadataSyncStep o s.db))).readings := hr
    unfold binarySyncStep at hr2
    rw [hbrd] at hr2
    obtain ⟨r0, hr0, hrid⟩ := sensorSyncStep_readings_pointwise o _ r hr2
    rw [hmrd] at hr0
    show r.reading_id ≤ s.reading_counter
    rw [hrid]
    exact h.readings_le r0 hr0
  · show (((binarySyncStep o s.fs
      (sensorSyncStep o (metadataSyncStep o s.db))).images).map _).Nodup
    unfold binarySyncStep
    rw [hbimg_id, himg21, hidm1]
    exact h.img_ids_nodup
  · intro i hi
    have hi2 : i ∈ (binarySyncStep o s.fs
        (sensorSyncStep o (metadataSyncStep o s.db))).images := hi
    unfold binarySyncStep at hi2
    obtain ⟨r, hr, hid, -⟩ := hprov i hi2
    rw [himg21] at hr
    obtain ⟨i0, hi0, hid0, -, -, -⟩ := metadataSyncStep_images_pointwise o s.db r hr
    show i.id < (binarySyncStep o s.fs
      (sensorSyncStep o (metadataSyncStep o s.db))).next_image_id
    unfold binarySyncStep
    rw [hbnid, hsnid, hmnid, hid, hid0]
    exact h.img_ids_lt i0 hi0
  · show (((binarySyncStep o s.fs
      (sensorSyncStep o (metadataSyncStep o s.db))).images).map imgKey).Nodup
    unfold binarySyncStep
    rw [hbimg_key, himg21, hkeym1]
    exact h.img_keys_nodup
  · intro i hi
    have hi2 : i ∈ (binarySyncStep o s.fs
        (sensorSyncStep o (metadataSyncStep o s.db))).images := hi
    unfold binarySyncStep at hi2
    obtain ⟨r, hr, hid, hcase⟩ := hprov i hi2
    have hevl : i.event_local_id = r.event_local_id := by
      rcases hcase with hcc | ⟨-, hcc | hcc⟩ <;> rw [hcc]
    rw [himg21] at hr
    obtain ⟨i0, hi0, -, -, -, hevl0⟩ := metadataSyncStep_images_pointwise o s.db r hr
    obtain ⟨e0, he0, heid0⟩ := h.img_event_mem i0 hi0
    have hmem : e0.event_id ∈ ((syncTick o s).db.events).map (fun e => e.event_id) := by
      rw [hev_map]
      exact List.mem_map_of_mem _ he0
    obtain ⟨e', he', heq'⟩ := List.mem_map.mp hmem
    refine ⟨e', he', ?_⟩
    rw [heq', heid0, ← hevl0, ← hevl]
  · intro i hi hc
    have hi2 : i ∈ (binarySyncStep o s.fs
        (sensorSyncStep o (metadataSyncStep o s.db))).images := hi
    unfold binarySyncStep at hi2
    obtain ⟨r, hr, hid, hcase⟩ := hprov i hi2
    rcases hcase with hcc | ⟨hbm, hcc | hcc⟩
    · rw [himg21] at hr
      obtain ⟨i0, hi0, -, hcor, hupl, -⟩ := metadataSyncStep_images_pointwise o s.db r hr
      rw [hcc, hcor] at hc
      rw [hcc, hupl]
      exact h.corrupted_terminal i0 hi0 hc
    · obtain ⟨-, -, -, hrcor⟩ := mem_get_unsynced_images _ 3 r hbm
      rw [hcc] at hc
      have : r.corrupted = true := hc
      rw [hrcor] at this
      exact absurd this (by decide)
    · rw [hcc]
      obtain ⟨-, -, hrupl, -⟩ := mem_get_unsynced_images _ 3 r hbm
      exact hrupl

/-- Every step of the transition system preserves well-formedness. -/
theorem step_WF (cfg : SysConfig) (s s' : EdgeState) (h : WF s) (hs : Step cfg s s') :
    WF s' := by
  cases hs with
  | capture o hcam => exact WF_capture cfg o s h hcam
  | heartbeat resp => exact WF_heartbeat resp s h
  | sync o => exact WF_sync o s h
  | cleanup o => exact WF_cleanup cfg o s h
  | restart => exact WF_restart s h

/-- Every reachable state of the agent is well-formed. -/
theorem reachable_WF (cfg : SysConfig) (s : EdgeState) (h : Reachable cfg s) : WF s := by
  induction h with
  | init fs => exact WF_startService_empty fs
  | step hr hstep ih => exact step_WF cfg _ _ ih hstep

theorem captureTick_images_cases (cfg : SysConfig) (o : CaptureOracle) (s : EdgeState) :
    (captureTick cfg o s).db.images = s.db.images ∨
    ∃ arts, (captureTick cfg o s).db.images =
      s.db.images ++ rowsOf (s.event_counter + 1) s.db.next_image_id arts := by
  unfold captureTick
  by_cases hs : cfg.sensor_enabled = true
  · rw [if_pos hs]
    cases o.sensorRead with
    | error e => exact Or.inl rfl
    | ok pr =>
      obtain ⟨t, hum⟩ := pr
      cases hc : o.cam (s.event_counter + 1) cfg.burst_size s.fs with
      | error e => exact Or.inl rfl
      | ok pr2 =>
        obtain ⟨fs2, arts⟩ := pr2
        refine Or.inr ⟨arts, ?_⟩
        obtain ⟨-, -, -, -, -, i6⟩ := insertImages_spec (s.event_counter + 1) arts
          (insert_event (insert_sensor_reading s.db
            { reading_id := s.reading_counter + 1, crate_id := cfg.crate_id,
              recorded_at := o.now, temperature_c := t, humidity_pct := hum,
              uploaded := false })
            (mkEventRow cfg (s.event_counter + 1) o.now arts))
        exact i6
  · rw [if_neg hs]
    cases hc : o.cam (s.event_counter + 1) cfg.burst_size s.fs with
    | error e => exact Or.inl rfl
    | ok pr2 =>
      obtain ⟨fs2, arts⟩ := pr2
      refine Or.inr ⟨arts, ?_⟩
      obtain ⟨-, -, -, -, -, i6⟩ := insertImages_spec (s.event_counter + 1) arts
        (insert_event s.db (mkEventRow cfg (s.event_counter + 1) o.now arts))
      exact i6

/-- Once set, the corrupted flag of an image row survives every step of the
system: no operation ever clears it. -/
theorem corrupted_preserved (cfg : SysConfig) (s s' : EdgeState) (h : WF s)
    (hs : Step cfg s s') :
    ∀ i ∈ s.db.images, i.corrupted = true →
      ∀ i' ∈ s'.db.images, i'.id = i.id → i'.corrupted = true := by
  have hinj := List.inj_on_of_nodup_map h.img_ids_nodup
  cases hs with
  | capture o hcam =>
    intro i hi hc i' hi' hid
    rcases captureTick_images_cases cfg o s with hcs | ⟨arts, hcs⟩
    · rw [hcs] at hi'
      rw [hinj hi' hi hid]
      exact hc
    · rw [hcs] at hi'
      rcases List.mem_append.mp hi' with hm | hm
      · rw [hinj hm hi hid]
        exact hc
      · obtain ⟨-, -, -, -, -, hge, -⟩ := rowsOf_flags _ _ arts i' hm
        have hlt := h.img_ids_lt i hi
        omega
  | heartbeat resp =>
    intro i hi hc i' hi' hid
    rw [heartbeatTick_db_images] at hi'
    rw [hinj hi' hi hid]
    exact hc
  | sync o =>
    intro i hi hc i' hi' hid
    have himg21 : (sensorSyncStep o (metadataSyncStep o s.db)).images
        = (metadataSyncStep o s.db).images := sensorSyncStep_images o _
    have hidm1 : ((metadataSyncStep o s.db).images).map (fun i => i.id)
        = s.db.images.map (fun i => i.id) :=
      metadataSyncStep_images_map_proj o s.db _ (fun i => rfl)
    have hkeym1 : ((metadataSyncStep o s.db).images).map imgKey
        = s.db.images.map imgKey :=
      metadataSyncStep_images_map_proj o s.db imgKey (fun i => rfl)
    have hids2 : (((sensorSyncStep o (metadataSyncStep o s.db)).images).map
        (fun i => i.id)).Nodup := by
      rw [himg21, hidm1]
      exact h.img_ids_nodup
    have hkeys2 : (((sensorSyncStep o (metadataSyncStep o s.db)).images).map
        imgKey).Nodup := by
      rw [himg21, hkeym1]
      exact h.img_keys_nodup
    have hsub := get_unsynced_images_sublist (sensorSyncStep o (metadataSyncStep o s.db)) 3
    obtain ⟨-, hprov, -⟩ := processImageUploads_spec o s.fs
      (get_unsynced_images (sensorSyncStep o (metadataSyncStep o s.db)) 3)
      (sensorSyncStep o (metadataSyncStep o s.db)) hids2 hkeys2
      (fun j hj => List.Sublist.mem hj hsub)
      (List.Nodup.sublist (List.Sublist.map _ hsub) hids2)
      (List.Nodup.sublist (List.Sublist.map _ hsub) hkeys2)
    have hi2 : i' ∈ (binarySyncStep o s.fs
        (sensorSyncStep o (metadataSyncStep o s.db))).images := hi'
    unfold binarySyncStep at hi2
    obtain ⟨r, hr, hidr, hcase⟩ := hprov i' hi2
    rw [himg21] at hr
    obtain ⟨i0, hi0, hid0, hcor, -, -⟩ := metadataSyncStep_images_pointwise o s.db r hr
    have hi0i : i0 = i := hinj hi0 hi (by rw [← hid0, ← hidr, hid])
    have hrc : r.corrupted = true := by
      rw [hcor, hi0i]
      exact hc
    rcases hcase with hcc | ⟨-, hcc | hcc⟩ <;> rw [hcc] <;> first | rfl | exact hrc
  | cleanup o =>
    intro i hi hc i' hi' hid
    rcases cleanupTick_cases cfg o s with he | ⟨n, he⟩ <;> rw [he] at hi'
    · rw [hinj hi' hi hid]
      exact hc
    · obtain ⟨-, hprov, -⟩ := processCandidates_prov o
        (get_cleanup_candidates s.db n cfg.retention_days o.now 20) s.db s.fs
      obtain ⟨r, hr, hidr, hcase⟩ := hprov i' hi'
      have hri : r = i := hinj hr hi (by rw [← hidr, hid])
      rcases hcase with hcc | ⟨hcc, -⟩ <;> rw [hcc, hri]
      · exact hc
      · exact hc
  | restart =>
    intro i hi hc i' hi' hid
    rw [hinj hi' hi hid]
    exact hc

/-- C2: for every reachable state, a corrupted image row is never marked
uploaded; a corrupted flag, once set, survives every subsequent step of any
loop (it is never cleared); and the binary-sync query never selects a
corrupted image again. -/
theorem claim_C2 (cfg : SysConfig) (s : EdgeState) (hreach : Reachable cfg s) :
    (∀ i ∈ s.db.images, i.corrupted = true → i.uploaded = false) ∧
    (∀ s', Step cfg s s' → ∀ i ∈ s.db.images, i.corrupted = true →
      ∀ i' ∈ s'.db.images, i'.id = i.id → i'.corrupted = true) ∧
    (∀ n, ∀ i ∈ get_unsynced_images s.db n, i.corrupted = false) := by
  have hwf := reachable_WF cfg s hreach
  refine ⟨hwf.corrupted_terminal, ?_, ?_⟩
  · intro s' hs
    exact corrupted_preserved cfg s s' hwf hs
  · intro n i hi
    exact (mem_get_unsynced_images s.db n i hi).2.2.2

/-- Configuration for the C2 witness run. -/
def c2cfg : SysConfig :=
  { device_id := "device-001", crate_id := 1, camera_name := "camera_0",
    image_dir := "imgs", burst_size := 1, retention_days := 30,
    sensor_enabled := false }

/-- The artifact the camera produces in the C2 witness run. -/
def c2camArt : CapturedImage :=
  { image_index := 0, local_path := "imgs/00000001_000.jpg", size_bytes := 1,
    sha256_hex := "s1", width_px := 640, height_px := 480, format := "jpg",
    captured_at := 0 }

/-- Capture oracle for the C2 witness: one image captured and written. -/
def c2capOracle : CaptureOracle :=
  { now := 0, sensorRead := Except.ok (none, none),
    cam := fun _ _ fs => Except.ok (fsWrite fs "imgs/00000001_000.jpg" [5], [c2camArt]) }

/-- Sync oracle for the C2 witness: metadata upload succeeds, then the binary
upload fails on the network. -/
def c2syncOracle : SyncOracle :=
  { metaResult := true, sensorResult := true,
    imgResult := fun _ _ => ImgUploadResult.transportError }

/-- State reached by one capture tick followed by one sync tick whose binary
upload fails: its single image row is corrupted. -/
def c2state : EdgeState :=
  syncTick c2syncOracle (captureTick c2cfg c2capOracle (startService emptyDB []))

theorem c2state_reachable : Reachable c2cfg c2state :=
  Reachable.step
    (Reachable.step (Reachable.init [])
      (Step.capture (startService emptyDB []) c2capOracle (by
        intro fs2 arts hh
        have hp := Except.ok.inj hh
        have h2 : arts = [c2camArt] := (congrArg Prod.snd hp).symm
        rw [h2]
        decide)))
    (Step.sync (captureTick c2cfg c2capOracle (startService emptyDB [])) c2syncOracle)

/-- The single image row of the C2 witness state. -/
def c2row : CapturedImageRecord :=
  { id := 1, event_local_id := 1, image_index := 0,
    local_path := "imgs/00000001_000.jpg", captured_at := 0, size_bytes := 1,
    sha256_hex := "s1", width_px := 640, height_px := 480, format := "jpg",
    metadata_uploaded := true, uploaded := false, local_exists := true,
    corrupted := true }

theorem claim_C2_witness :
    c2row.uploaded = false ∧
    c2state.db.images.map (fun i => (i.corrupted, i.uploaded)) = [(true, false)] :=
  ⟨(claim_C2 c2cfg c2state c2state_reachable).1 c2row (by decide) (by decide),
   by decide⟩

/-- C5 (amended): within a run every capture tick — successful or failed —
advances the event counter by exactly one (and, with the sensor enabled, the
reading counter likewise), no other tick touches them, so allocated
identifiers are strictly increasing and gaps from failed ticks are never
backfilled during a run; startup re-seeds the counters from the stored maxima;
and in every reachable state — restarts included — stored event and reading
identifiers are unique and never exceed the counters, so committed
identifiers are never reused. -/
theorem claim_C5 (cfg : SysConfig) :
    (∀ (o : CaptureOracle) (s : EdgeState),
      (captureTick cfg o s).event_counter = s.event_counter + 1) ∧
    (∀ (o : CaptureOracle) (s : EdgeState), cfg.sensor_enabled = true →
      (captureTick cfg o s).reading_counter = s.reading_counter + 1) ∧
    (∀ (resp : Option (Option Int)) (s : EdgeState),
      (heartbeatTick resp s).event_counter = s.event_counter ∧
      (heartbeatTick resp s).reading_counter = s.reading_counter) ∧
    (∀ (o : SyncOracle) (s : EdgeState),
      (syncTick o s).event_counter = s.event_counter ∧
      (syncTick o s).reading_counter = s.reading_counter) ∧
    (∀ (o : CleanupOracle) (s : EdgeState),
      (cleanupTick cfg o s).event_counter = s.event_counter ∧
      (cleanupTick cfg o s).reading_counter = s.reading_counter) ∧
    (∀ (db : Database) (fs : FS),
      (startService db fs).event_counter = maxEventId db ∧
      (startService db fs).reading_counter = maxReadingId db) ∧
    (∀ s, Reachable cfg s →
      (s.db.events.map (fun e => e.event_id)).Nodup ∧
      (s.db.readings.map (fun r => r.reading_id)).Nodup ∧
      (∀ e ∈ s.db.events, e.event_id ≤ s.event_counter) ∧
      (∀ r ∈ s.db.readings, r.reading_id ≤ s.reading_counter)) := by
  refine ⟨fun o s => captureTick_event_counter cfg o s,
    fun o s h => captureTick_reading_counter cfg o s h,
    fun resp s => heartbeatTick_counters resp s,
    fun o s => syncTick_counters o s,
    fun o s => cleanupTick_counters cfg o s,
    fun db fs => ⟨rfl, rfl⟩, ?_⟩
  intro s hreach
  have hwf := reachable_WF cfg s hreach
  exact ⟨hwf.events_nodup, hwf.readings_nodup, hwf.events_le, hwf.readings_le⟩

/-- Configuration for the C5 counterexample run. -/
def c5cfg : SysConfig :=
  { device_id := "device-001", crate_id := 1, camera_name := "camera_0",
    image_dir := "imgs", burst_size := 1, retention_days := 30,
    sensor_enabled := false }

/-- The artifact committed by the successful ticks of the C5 counterexample. -/
def c5art : CapturedImage :=
  { image_index := 0, local_path := "imgs/x.jpg", size_bytes := 1,
    sha256_hex := "sx", width_px := 640, height_px := 480, format := "jpg",
    captured_at := 0 }

/-- Capture oracle whose camera succeeds. -/
def c5okOracle : CaptureOracle :=
  { now := 0, sensorRead := Except.ok (none, none),
    cam := fun _ _ fs => Except.ok (fs, [c5art]) }

/-- Capture oracle whose camera raises. -/
def c5errOracle : CaptureOracle :=
  { now := 0, sensorRead := Except.ok (none, none),
    cam := fun _ _ _ => Except.error () }

/-- After one successful capture tick: event 1 committed, counter 1. -/
def c5s1 : EdgeState := captureTick c5cfg c5okOracle (startService emptyDB [])

/-- After a failed capture tick: identifier 2 consumed, nothing committed. -/
def c5s2 : EdgeState := captureTick c5cfg c5errOracle c5s1

/-- After a process restart: the counter is re-seeded from the stored maximum
event identifier, which is 1. -/
def c5s3 : EdgeState := startService c5s2.db c5s2.fs

/-- C5 counterexample: the failed tick before the restart consumed event
identifier 2 (the counter reached 2 with only event 1 committed); after the
restart the counter is re-seeded to 1, so the next capture tick allocates —
and commits — identifier 2 a second time.  Allocated identifiers are
therefore neither strictly increasing nor unreused across restarts, contrary
to the claim. -/
theorem claim_C5_cex :
    c5s2.event_counter = 2 ∧
    c5s2.db.events.map (fun e => e.event_id) = [1] ∧
    c5s3.event_counter = 1 ∧
    (captureTick c5cfg c5okOracle c5s3).event_counter = 2 ∧
    (captureTick c5cfg c5okOracle c5s3).db.events.map (fun e => e.event_id) = [1, 2] :=
  ⟨by decide, by decide, by decide, by decide, by decide⟩

theorem claim_C5_witness :
    (captureTick c5cfg c5okOracle (startService emptyDB [])).event_counter =
      (startService emptyDB []).event_counter + 1 ∧
    ((startService emptyDB []).db.events.map (fun e => e.event_id)).Nodup :=
  ⟨(claim_C5 c5cfg).1 c5okOracle (startService emptyDB []),
   ((claim_C5 c5cfg).2.2.2.2.2.2 (startService emptyDB []) (Reachable.init [])).1⟩

end SmartLarva
